import Mathlib

/-!
# Smart-drug-ai: document-to-metrics pipeline

A shallow embedding of the extraction pipeline of the repository
(`src/utils/textExtraction.js`, `src/pages/api/parse.js`,
`src/pages/HealthAnalysis.js`) together with the properties proved about it.

JavaScript strings are sequences of UTF-16 code units; they are modelled as
lists of natural numbers.  The regular expressions of `extractHealthMetrics`
are values of a small regular-expression syntax, executed by a backtracking
matcher that returns every way of matching in the priority order of the
ECMAScript matcher, so that the first element is the match JavaScript finds.
-/

namespace SmartDrug

/-! ## Strings -/

deriving instance DecidableEq for Except

/-- A JavaScript string: its UTF-16 code units. -/
abbrev JSString := List Nat

/-- The UTF-16 code units of one Unicode scalar value. -/
def utf16Char (c : Char) : List Nat :=
  if c.toNat < 65536 then [c.toNat]
  else [55296 + (c.toNat - 65536) / 1024, 56320 + (c.toNat - 65536) % 1024]

/-- The JavaScript string written by a string literal. -/
def js (s : String) : JSString :=
  s.toList.flatMap utf16Char

/-- The code units matched by `\s`, which are also the ones removed by
`String.prototype.trim`: WhiteSpace and LineTerminator of ECMAScript. -/
def isWhiteSpace (c : Nat) : Bool :=
  c == 9 || c == 10 || c == 11 || c == 12 || c == 13 || c == 32 || c == 160 ||
  c == 5760 || (8192 ≤ c && c ≤ 8202) || c == 8232 || c == 8233 || c == 8239 ||
  c == 8287 || c == 12288 || c == 65279

/-- The code units matched by `\d`. -/
def isDigit (c : Nat) : Bool :=
  48 ≤ c && c ≤ 57

/-- ASCII lower-casing of one code unit.  `String.prototype.toLowerCase` agrees
with it on every string whose lower-cased form is compared below with an ASCII
constant: no code unit outside `A`-`Z` lower-cases to one of the letters of
`application/pdf`, `image/` or `.pdf`. -/
def toLowerUnit (c : Nat) : Nat :=
  if 65 ≤ c ∧ c ≤ 90 then c + 32 else c

/-- The model of `String.prototype.toLowerCase`. -/
def toLowerCase (s : JSString) : JSString :=
  s.map toLowerUnit

/-- The model of `String.prototype.startsWith`. -/
def startsWith (s p : JSString) : Bool :=
  p.isPrefixOf s

/-- The model of `String.prototype.endsWith`. -/
def endsWith (s p : JSString) : Bool :=
  p.isSuffixOf s

/-- The model of `String.prototype.includes`: `p` occurs at some position of `s`. -/
def includes : JSString → JSString → Bool
  | [], p => p.isPrefixOf []
  | c :: cs, p => p.isPrefixOf (c :: cs) || includes cs p

/-- The model of `String.prototype.trim`. -/
def trim (s : JSString) : JSString :=
  ((s.dropWhile isWhiteSpace).reverse.dropWhile isWhiteSpace).reverse

/-! ## Numbers -/

/-- The numbers produced by `parseInt` and `parseFloat` on the captures of the
patterns: `NaN`, or the decimal `mantissa / 10 ^ scale` that the digits denote
(the double nearest to it in JavaScript). -/
inductive JSNumber where
  | nan
  | dec (mantissa : Nat) (scale : Nat)
  deriving DecidableEq, Repr

/-- The value of a list of decimal digits, most significant first, on top of `acc`. -/
def digitsValue (acc : Nat) : List Nat → Nat
  | [] => acc
  | d :: ds => digitsValue (acc * 10 + (d - 48)) ds

/-- The model of `parseInt` (radix 10) on a string: the longest prefix of decimal
digits, `NaN` when there is none.  The white space, sign and `0x` prefix that
`parseInt` also accepts cannot occur in a capture of `\d{2,3}`. -/
def parseInt (s : JSString) : JSNumber :=
  match s.takeWhile isDigit with
  | [] => JSNumber.nan
  | ds => JSNumber.dec (digitsValue 0 ds) 0

/-- The model of `parseFloat` on a string: the longest prefix of the form
`digits` or `digits.digits`, `NaN` when the string does not start with a digit.
The white space, sign, leading dot and exponent that `parseFloat` also accepts
cannot occur in a capture of `\d+(?:\.\d{1,3})?`. -/
def parseFloat (s : JSString) : JSNumber :=
  match s.takeWhile isDigit with
  | [] => JSNumber.nan
  | ds =>
    match s.dropWhile isDigit with
    | 46 :: r =>
      let fs := r.takeWhile isDigit
      JSNumber.dec (digitsValue (digitsValue 0 ds) fs) fs.length
    | _ => JSNumber.dec (digitsValue 0 ds) 0

/-- An array element passed to `parseInt`: `undefined` reads as `NaN`. -/
def parseIntArg : Option JSString → JSNumber
  | none => JSNumber.nan
  | some s => parseInt s

/-- An array element passed to `parseFloat`: `undefined` reads as `NaN`. -/
def parseFloatArg : Option JSString → JSNumber
  | none => JSNumber.nan
  | some s => parseFloat s

/-! ## Regular expressions -/

/-- The single-character atoms of the patterns. -/
inductive Atom where
  | lit (c : Nat)
  | digit
  | space
  | oneOf (cs : List Nat)
  deriving DecidableEq, Repr

/-- The regular expressions of the patterns.  A quantifier `{min,max}` is only
ever applied to a single-character atom in the source, an optional `?` to a
group or a class. -/
inductive Regex where
  | empty
  | atom (a : Atom)
  | seq (r s : Regex)
  | alt (r s : Regex)
  | opt (r : Regex)
  | rep (a : Atom) (min : Nat) (max : Option Nat)
  | group (i : Nat) (r : Regex)
  deriving DecidableEq, Repr

/-- Canonicalize of ECMAScript for a pattern with the `i` flag and without the
`u` flag, as far as the patterns need it: a code unit is mapped to its upper
case.  Only the ASCII letters, the Greek mu and the micro sign are listed: they
are all the code units whose canonical form is the canonical form of a
character written in one of the patterns. -/
def canonicalize (c : Nat) : Nat :=
  if 97 ≤ c ∧ c ≤ 122 then c - 32
  else if c = 956 ∨ c = 181 then 924
  else c

/-- Whether an atom accepts a code unit, with (`ic`) or without the `i` flag. -/
def Atom.test (ic : Bool) : Atom → Nat → Bool
  | Atom.lit c, x => if ic then canonicalize c == canonicalize x else c == x
  | Atom.digit, x => isDigit x
  | Atom.space, x => isWhiteSpace x
  | Atom.oneOf cs, x =>
    if ic then cs.any (fun c => canonicalize c == canonicalize x) else cs.any (fun c => c == x)

/-- The state of the matcher: the input still to read and the captures so far. -/
structure MState where
  rest : JSString
  caps : Nat → Option JSString

/-- The greedy quantifier `a{min,max}` on a single-character atom, as the
RepeatMatcher of ECMAScript: one more repetition is tried first, stopping is
tried next and is allowed once `min` repetitions are done.  The results are
the inputs left, longest match first. -/
def repeatAtom (p : Nat → Bool) : Nat → Option Nat → JSString → List JSString
  | min, _, [] => if min = 0 then [[]] else []
  | min, max, x :: xs =>
    (if p x && !(max == some 0) then repeatAtom p (min - 1) (max.map (· - 1)) xs else []) ++
    (if min = 0 then [x :: xs] else [])

/-- The backtracking matcher: every way in which `r` matches a prefix of the
input of the state, in the order in which ECMAScript tries them. -/
def matchRe (ic : Bool) : Regex → MState → List MState
  | Regex.empty, st => [st]
  | Regex.atom a, st =>
    match st.rest with
    | [] => []
    | x :: xs => if a.test ic x then [{ st with rest := xs }] else []
  | Regex.seq r s, st => (matchRe ic r st).flatMap (matchRe ic s)
  | Regex.alt r s, st => matchRe ic r st ++ matchRe ic s st
  | Regex.opt r, st =>
    (matchRe ic r st).filter (fun st1 => st1.rest.length < st.rest.length) ++ [st]
  | Regex.rep a min max, st =>
    (repeatAtom (a.test ic) min max st.rest).map (fun r => { st with rest := r })
  | Regex.group i r, st =>
    (matchRe ic r st).map (fun st1 =>
      { st1 with caps := fun j =>
          if j = i then some (st.rest.take (st.rest.length - st1.rest.length)) else st1.caps j })

/-- The array returned by a successful match: element 0 is the matched text,
element `i` the capture of group `i`. -/
abbrev MatchArray := Nat → Option JSString

/-- The match of `r` starting exactly at the beginning of `s`, if any. -/
def matchHere (ic : Bool) (r : Regex) (s : JSString) : Option MatchArray :=
  (matchRe ic (Regex.group 0 r) { rest := s, caps := fun _ => none }).head?.map MState.caps

/-- The model of `text.match(pattern)` for a pattern without the `g` flag: the
start positions are tried from left to right; the result is `null` (`none`) when
the pattern matches nowhere. -/
def jsMatch (ic : Bool) (r : Regex) : JSString → Option MatchArray
  | [] => matchHere ic r []
  | c :: cs =>
    match matchHere ic r (c :: cs) with
    | some m => some m
    | none => jsMatch ic r cs

/-! ## The patterns of `extractHealthMetrics` -/

/-- The pattern matching the characters of `s` one after the other. -/
def str (s : String) : Regex :=
  (js s).foldr (fun c r => Regex.seq (Regex.atom (Atom.lit c)) r) Regex.empty

/-- The concatenation of a list of patterns. -/
def seqs : List Regex → Regex
  | [] => Regex.empty
  | [r] => r
  | r :: rs => Regex.seq r (seqs rs)

/-- The alternation `r1|r2|...` of a non-empty list of patterns. -/
def alts : List Regex → Regex
  | [] => Regex.empty
  | [r] => r
  | r :: rs => Regex.alt r (alts rs)

/-- The pattern `\s*`. -/
def ws : Regex := Regex.rep Atom.space 0 none

/-- The pattern `[:]?`. -/
def colon : Regex := Regex.opt (Regex.atom (Atom.oneOf (js ":")))

/-- The pattern `\d{2,3}`. -/
def digits23 : Regex := Regex.rep Atom.digit 2 (some 3)

/-- The pattern `\d{2,3}(?:\.\d{1,2})?`. -/
def decimal23 : Regex :=
  Regex.seq digits23 (Regex.opt (Regex.seq (Regex.atom (Atom.lit 46)) (Regex.rep Atom.digit 1 (some 2))))

/-- The pattern `\d+(?:\.\d{1,3})?`. -/
def decimalAny : Regex :=
  Regex.seq (Regex.rep Atom.digit 1 none)
    (Regex.opt (Regex.seq (Regex.atom (Atom.lit 46)) (Regex.rep Atom.digit 1 (some 3))))

/-- The label `(?:BP|Blood Pressure|Blood pressure)`. -/
def bpLabel : Regex := alts [str "BP", str "Blood Pressure", str "Blood pressure"]

/-- The blood-pressure pattern with separator `sep`:
`label\s*[:]?\s*(\d{2,3})\s*sep\s*(\d{2,3})`. -/
def bpPattern (sep : Regex) : Regex :=
  seqs [bpLabel, ws, colon, ws, Regex.group 1 digits23, ws, sep, ws, Regex.group 2 digits23]

/-- The list `bpPatterns` of the source, all with the `i` flag. -/
def bpPatterns : List Regex :=
  [ bpPattern (Regex.atom (Atom.lit 47)),
    bpPattern (str "over"),
    bpPattern (Regex.atom (Atom.oneOf (js "-–"))) ]

/-- The label `(?:Blood Glucose|Blood sugar|FBS|Fasting Blood Sugar)`. -/
def diabetesLabel : Regex :=
  alts [str "Blood Glucose", str "Blood sugar", str "FBS", str "Fasting Blood Sugar"]

/-- The unit `(?:mg\/dl|mg\/dL|mg\/dl)`. -/
def unitMg : Regex := alts [str "mg/dl", str "mg/dL", str "mg/dl"]

/-- The unit `(?:mmol\/L|mmol\/l)`. -/
def unitMmol : Regex := alts [str "mmol/L", str "mmol/l"]

/-- A pattern `label\s*[:]?\s*(number)\s*unit` with one capture. -/
def valuePattern (label number unit : Regex) : Regex :=
  seqs [label, ws, colon, ws, Regex.group 1 number, ws, unit]

/-- The list `diabetesPatterns` of the source. -/
def diabetesPatterns : List Regex :=
  [ valuePattern diabetesLabel decimal23 unitMg,
    valuePattern diabetesLabel decimal23 unitMmol ]

/-- The label `(?:Total Cholesterol|Cholesterol)`. -/
def cholesterolLabel : Regex := alts [str "Total Cholesterol", str "Cholesterol"]

/-- The list `cholesterolPatterns` of the source. -/
def cholesterolPatterns : List Regex :=
  [ valuePattern cholesterolLabel decimal23 unitMg,
    valuePattern cholesterolLabel decimal23 unitMmol ]

/-- The label `(?:TSH|Thyroid Stimulating Hormone)`. -/
def thyroidLabel : Regex := alts [str "TSH", str "Thyroid Stimulating Hormone"]

/-- The list `thyroidPatterns` of the source. -/
def thyroidPatterns : List Regex :=
  [ valuePattern thyroidLabel decimalAny (alts [str "mIU/L", str "mIU/l", str "μIU/ml"]),
    valuePattern thyroidLabel decimalAny (alts [str "ng/ml", str "ng/mL"]) ]

/-! ## `extractHealthMetrics` -/

/-- The object `metrics`: `none` is `null`. -/
structure Metrics where
  bp_systolic : Option JSNumber
  bp_diastolic : Option JSNumber
  diabetes : Option JSNumber
  cholesterol : Option JSNumber
  thyroid : Option JSNumber
  deriving DecidableEq, Repr

/-- The loop `for (const pattern of patterns) { const match = text.match(pattern);
if (match) { ...; break; } }`: the match array of the first pattern of the list
that matches the text. -/
def firstMatch (text : JSString) : List Regex → Option MatchArray
  | [] => none
  | p :: ps =>
    match jsMatch true p text with
    | some m => some m
    | none => firstMatch text ps

/-- The function `extractHealthMetrics` of `src/utils/textExtraction.js`. -/
def extractHealthMetrics (text : JSString) : Metrics :=
  let metrics : Metrics :=
    { bp_systolic := none, bp_diastolic := none, diabetes := none,
      cholesterol := none, thyroid := none }
  let metrics :=
    match firstMatch text bpPatterns with
    | some m => { metrics with bp_systolic := some (parseIntArg (m 1)),
                               bp_diastolic := some (parseIntArg (m 2)) }
    | none => metrics
  let metrics :=
    match firstMatch text diabetesPatterns with
    | some m => { metrics with diabetes := some (parseFloatArg (m 1)) }
    | none => metrics
  let metrics :=
    match firstMatch text cholesterolPatterns with
    | some m => { metrics with cholesterol := some (parseFloatArg (m 1)) }
    | none => metrics
  let metrics :=
    match firstMatch text thyroidPatterns with
    | some m => { metrics with thyroid := some (parseFloatArg (m 1)) }
    | none => metrics
  metrics

/-! ## The parse endpoint (`src/pages/api/parse.js`) -/

/-- The file object that formidable hands to the endpoint: the declared content
type, the name given by the client (a string for an uploaded file) and the
declared size. -/
structure UploadedFile where
  mimetype : JSString
  originalFilename : JSString
  size : Nat
  deriving DecidableEq, Repr

/-- The object returned by `validatePDF` and `validatePDFFile`. -/
structure Validation where
  isValid : Bool
  error : Option JSString
  deriving DecidableEq, Repr

/-- The text `buffer.toString('ascii')`: Node clears the highest bit of every byte. -/
def asciiString (bytes : List Nat) : JSString :=
  bytes.map (· % 128)

/-- The function `validatePDF` of `src/pages/api/parse.js`; `none` is a missing
file or buffer. -/
def validatePDF (file : Option UploadedFile) (buffer : Option (List Nat)) : Validation :=
  match file with
  | none => { isValid := false, error := some (js "No file provided") }
  | some file =>
    if file.mimetype ≠ js "application/pdf" then
      { isValid := false, error := some (js "Invalid file type. Please upload a PDF file.") }
    else if !endsWith (toLowerCase file.originalFilename) (js ".pdf") then
      { isValid := false, error := some (js "Invalid file extension. Please upload a PDF file.") }
    else if file.size = 0 then
      { isValid := false, error := some (js "File is empty") }
    else
      match buffer with
      | none => { isValid := false, error := some (js "Failed to read file content") }
      | some buffer =>
        if buffer.length = 0 then
          { isValid := false, error := some (js "Failed to read file content") }
        else if buffer.length < 8 then
          { isValid := false, error := some (js "File is too small to be a valid PDF") }
        else if !includes (asciiString (buffer.take 8)) (js "%PDF-") then
          { isValid := false, error := some (js "Invalid PDF format. File may be corrupted.") }
        else
          { isValid := true, error := none }

/-- The model of `Array.prototype.join`. -/
def join (sep : JSString) : List JSString → JSString
  | [] => []
  | [x] => x
  | x :: xs => x ++ sep ++ join sep xs

/-- What pdf.js answers for a buffer: `getDocument` rejects with a message, or
the document opens and every page, asked for in turn, either rejects with a
message or yields the strings of its text items. -/
abbrev PdfJsAnswer := Except JSString (List (Except JSString (List JSString)))

/-- The object returned by a PDF parser: the text (`none` when it is missing)
and the number of pages. -/
structure PdfData where
  text : Option JSString
  numpages : Nat
  deriving DecidableEq, Repr

/-- The loop of `parsePDFWithFallback` over the pages still to read: `fullText`
after the last page, or the message of the first page that fails. -/
def readPages (fullText : JSString) : List (Except JSString (List JSString)) → Except JSString JSString
  | [] => Except.ok fullText
  | Except.error e :: _ => Except.error e
  | Except.ok items :: pages => readPages (fullText ++ (join (js " ") items ++ js "\n")) pages

/-- The function `parsePDFWithFallback` of `src/pages/api/parse.js`: the data it
returns, or the message of the error it throws (its `catch` rethrows). -/
def parsePDFWithFallback (pdf : PdfJsAnswer) : Except JSString PdfData :=
  match pdf with
  | Except.error e => Except.error e
  | Except.ok pages =>
    match readPages [] pages with
    | Except.error e => Except.error e
    | Except.ok fullText =>
      if trim fullText = [] then Except.error (js "No text extracted using PDF.js method")
      else Except.ok { text := some (trim fullText), numpages := pages.length }

/-- What the world answers during one call of the handler: the result of
`form.parse` (an error message, or `files.file[0]` when there is one), whether
the uploaded file is on disk, the result of reading it, the result of
`pdfParse` (a rejection message, or the data, possibly `null`), and what pdf.js
answers. -/
structure ParseWorld where
  form : Except JSString (Option UploadedFile)
  fileExists : Bool
  readFile : Except JSString (List Nat)
  pdfParse : Except JSString (Option PdfData)
  pdfjs : PdfJsAnswer

/-- The JSON bodies the handler sends. -/
inductive Body where
  | error (error : JSString)
  | parseFailure (error : JSString) (primary : JSString) (fallback : JSString)
  | serverError (error : JSString) (details : JSString)
  | parsed (text : JSString) (pages : Nat) (textLength : Nat) (method : JSString)
  deriving DecidableEq, Repr

/-- The response of the handler. -/
structure Response where
  status : Nat
  body : Body
  deriving DecidableEq, Repr

/-- The calls of the handler that the properties count. -/
inductive Call where
  | validatePDF
  | pdfParse
  | parsePDFWithFallback
  deriving DecidableEq, Repr

/-- The primary strategy of the handler: the body of its inner `try`.  The data
of `pdfParse` when its text is non-empty after trimming, else the message of
`parseError`. -/
def primaryParse (w : ParseWorld) : Except JSString (JSString × Nat) :=
  match w.pdfParse with
  | Except.error e => Except.error e
  | Except.ok none => Except.error (js "No text found in PDF")
  | Except.ok (some data) =>
    match data.text with
    | none => Except.error (js "No text found in PDF")
    | some text =>
      if text = [] ∨ trim text = [] then Except.error (js "No text found in PDF")
      else Except.ok (text, data.numpages)

/-- The fallback strategy of the handler: the body of its second `try`. -/
def fallbackParse (w : ParseWorld) : Except JSString (JSString × Nat) :=
  match parsePDFWithFallback w.pdfjs with
  | Except.error e => Except.error e
  | Except.ok data =>
    match data.text with
    | none => Except.error (js "No text found in PDF with PDF.js method")
    | some text =>
      if text = [] ∨ trim text = [] then Except.error (js "No text found in PDF with PDF.js method")
      else Except.ok (text, data.numpages)

/-- The two nested `try` blocks of the handler, run once the file is validated:
the primary strategy, and the fallback strategy when the primary one fails. -/
def parseBoth (w : ParseWorld) : Response × List Call :=
  match primaryParse w with
  | Except.ok (text, pages) =>
    ({ status := 200, body := Body.parsed text pages text.length (js "primary") },
     [Call.pdfParse])
  | Except.error primary =>
    match fallbackParse w with
    | Except.ok (text, pages) =>
      ({ status := 200, body := Body.parsed text pages text.length (js "pdfjs") },
       [Call.pdfParse, Call.parsePDFWithFallback])
    | Except.error fallback =>
      ({ status := 400,
         body := Body.parseFailure (js "Failed to parse PDF with both methods") primary fallback },
       [Call.pdfParse, Call.parsePDFWithFallback])

/-- The function `handler` of `src/pages/api/parse.js`: the response, and the
calls made in order. -/
def handler (method : JSString) (w : ParseWorld) : Response × List Call :=
  if method ≠ js "POST" then
    ({ status := 405, body := Body.error (js "Method not allowed") }, [])
  else
    match w.form with
    | Except.error e =>
      ({ status := 500, body := Body.serverError (js "Error processing file") e }, [])
    | Except.ok none => ({ status := 400, body := Body.error (js "No file uploaded") }, [])
    | Except.ok (some file) =>
      if !w.fileExists then ({ status := 400, body := Body.error (js "File not found") }, [])
      else
        match w.readFile with
        | Except.error e =>
          ({ status := 500, body := Body.serverError (js "Error processing file") e }, [])
        | Except.ok dataBuffer =>
          let validation := validatePDF (some file) (some dataBuffer)
          if !validation.isValid then
            ({ status := 400, body := Body.error (validation.error.getD []) }, [Call.validatePDF])
          else
            ((parseBoth w).1, Call.validatePDF :: (parseBoth w).2)

/-! ## Text extraction in the browser (`src/utils/textExtraction.js`) -/

/-- The JSON answer of `/api/parse` as `extractTextFromPDF` reads it: the flag
`response.ok` and the fields `error`, `text` and `info` of the body (`none`
when the field is missing; of `info` only its presence matters). -/
structure ApiAnswer where
  ok : Bool
  error : Option JSString
  text : Option JSString
  hasInfo : Bool
  deriving DecidableEq, Repr

/-- What the OCR engine and the browser do for one image: `createWorker` rejects
with a message or gives a worker; `URL.createObjectURL(file)` throws (it does
for an argument that is not a `Blob`) or gives a URL; `recognize` rejects or
gives the text read; `terminate` rejects or ends the worker. -/
structure OcrWorld where
  createWorker : Except JSString Unit
  createObjectURL : Except JSString Unit
  recognize : Except JSString JSString
  terminate : Except JSString Unit

/-- A submitted document: the fields of the `File` object that the code reads,
and what the services called for this file answer (`fetch` of `/api/parse`
rejects with a message or yields an answer; the OCR engine; whether the upload
to storage and the write of the report succeed). -/
structure SubmittedFile where
  name : JSString
  type : JSString
  size : Nat
  api : Except JSString ApiAnswer
  ocr : OcrWorld
  uploadOk : Bool

/-- The calls of the browser code that the properties count. -/
inductive Event where
  | extractTextFromPDF
  | extractTextFromImage
  | extractHealthMetrics
  | fetchParse
  | createWorker
  | createObjectURL
  | recognize
  | terminate
  | revokeObjectURL
  deriving DecidableEq, Repr

/-- The function `validatePDFFile` of `src/utils/textExtraction.js`. -/
def validatePDFFile (file : Option SubmittedFile) : Validation :=
  match file with
  | none => { isValid := false, error := some (js "No file provided") }
  | some file =>
    if file.type = [] ∨ file.type ≠ js "application/pdf" then
      { isValid := false, error := some (js "Invalid file type. Please upload a PDF file.") }
    else if !endsWith (toLowerCase file.name) (js ".pdf") then
      { isValid := false, error := some (js "Invalid file extension. Please upload a PDF file.") }
    else if file.size = 0 then
      { isValid := false, error := some (js "File is empty") }
    else if file.size > 100 * 1024 * 1024 then
      { isValid := false, error := some (js "File is too large. Maximum size is 100MB.") }
    else
      { isValid := true, error := none }

/-- The body of the `try` of `extractTextFromPDF`: the text, or the message of
the error thrown, and the calls made. -/
def extractTextFromPDFTry (file : SubmittedFile) : Except JSString JSString × List Event :=
  let validation := validatePDFFile (some file)
  if !validation.isValid then (Except.error (validation.error.getD []), [])
  else
    match file.api with
    | Except.error e => (Except.error e, [Event.fetchParse])
    | Except.ok data =>
      if !data.ok then
        if data.error = some (js "Failed to parse PDF with both methods") then
          (Except.error
            (js "Failed to extract text from PDF. The file might be corrupted or unreadable."),
           [Event.fetchParse])
        else
          match data.error with
          | none => (Except.error (js "Failed to parse PDF"), [Event.fetchParse])
          | some e =>
            (Except.error (if e = [] then js "Failed to parse PDF" else e), [Event.fetchParse])
      else
        match data.text with
        | none => (Except.error (js "No readable text found in PDF"), [Event.fetchParse])
        | some text =>
          if text = [] ∨ trim text = [] then
            (Except.error (js "No readable text found in PDF"), [Event.fetchParse])
          else if !data.hasInfo then
            (Except.error (js "Cannot read properties of undefined (reading 'method')"),
             [Event.fetchParse])
          else (Except.ok text, [Event.fetchParse])

/-- The function `extractTextFromPDF`: its `catch` rewrites the message of
every error of the `try`. -/
def extractTextFromPDF (file : SubmittedFile) : Except JSString JSString × List Event :=
  match extractTextFromPDFTry file with
  | (Except.ok text, evs) => (Except.ok text, Event.extractTextFromPDF :: evs)
  | (Except.error e, evs) =>
    if includes e (js "Failed to extract text") then
      (Except.error (js ("Unable to read text from this PDF. Please ensure the file is not " ++
          "corrupted and contains readable text.")),
       Event.extractTextFromPDF :: evs)
    else (Except.error (js "PDF processing failed: " ++ e), Event.extractTextFromPDF :: evs)

/-- The body of the outer `try` of `extractTextFromImage`.  `createWorker` and
`URL.createObjectURL(file)` are called before the inner `try`, whose `finally`
calls `terminate` and then `revokeObjectURL`: an exception of `createObjectURL`
leaves through the outer `catch` without passing through that `finally`. -/
def extractTextFromImageTry (file : SubmittedFile) : Except JSString JSString × List Event :=
  if !startsWith file.type (js "image/") then
    (Except.error (js "Invalid file format. Please upload an image file."), [])
  else if file.size = 0 then (Except.error (js "File is empty"), [])
  else
    match file.ocr.createWorker with
    | Except.error e => (Except.error e, [Event.createWorker])
    | Except.ok _ =>
      match file.ocr.createObjectURL with
      | Except.error e => (Except.error e, [Event.createWorker, Event.createObjectURL])
      | Except.ok _ =>
        let inner : Except JSString JSString :=
          match file.ocr.recognize with
          | Except.error e => Except.error e
          | Except.ok text =>
            if text = [] then Except.error (js "No text extracted from image") else Except.ok text
        match file.ocr.terminate with
        | Except.error e =>
          (Except.error e,
           [Event.createWorker, Event.createObjectURL, Event.recognize, Event.terminate])
        | Except.ok _ =>
          (inner,
           [Event.createWorker, Event.createObjectURL, Event.recognize, Event.terminate,
            Event.revokeObjectURL])

/-- The function `extractTextFromImage`. -/
def extractTextFromImage (file : SubmittedFile) : Except JSString JSString × List Event :=
  match extractTextFromImageTry file with
  | (Except.ok text, evs) => (Except.ok text, Event.extractTextFromImage :: evs)
  | (Except.error e, evs) =>
    (Except.error (js "Image processing failed: " ++ e), Event.extractTextFromImage :: evs)

/-- The object returned by `extractTextFromFile`. -/
structure Extraction where
  text : JSString
  metrics : Metrics
  deriving DecidableEq, Repr

/-- The function `extractTextFromFile` of `src/utils/textExtraction.js`: the
object returned, or the message of the error thrown, and the calls made. -/
def extractTextFromFile (file : SubmittedFile) : Except JSString Extraction × List Event :=
  let fileType := toLowerCase file.type
  let extracted : Except JSString JSString × List Event :=
    if fileType = js "application/pdf" then extractTextFromPDF file
    else if startsWith fileType (js "image/") then extractTextFromImage file
    else (Except.error (js "Unsupported file type"), [])
  match extracted with
  | (Except.error e, evs) => (Except.error e, evs)
  | (Except.ok extractedText, evs) =>
    (Except.ok { text := extractedText, metrics := extractHealthMetrics extractedText },
     evs ++ [Event.extractHealthMetrics])

/-! ## The submission (`src/pages/HealthAnalysis.js`) -/

/-- The five `if` statements of `handleSubmit` that merge the metrics of one
document into `aggregatedMetrics`. -/
def mergeMetrics (aggregatedMetrics metrics : Metrics) : Metrics :=
  { bp_systolic :=
      if aggregatedMetrics.bp_systolic = none ∧ metrics.bp_systolic ≠ none
      then metrics.bp_systolic else aggregatedMetrics.bp_systolic,
    bp_diastolic :=
      if aggregatedMetrics.bp_diastolic = none ∧ metrics.bp_diastolic ≠ none
      then metrics.bp_diastolic else aggregatedMetrics.bp_diastolic,
    diabetes :=
      if aggregatedMetrics.diabetes = none ∧ metrics.diabetes ≠ none
      then metrics.diabetes else aggregatedMetrics.diabetes,
    cholesterol :=
      if aggregatedMetrics.cholesterol = none ∧ metrics.cholesterol ≠ none
      then metrics.cholesterol else aggregatedMetrics.cholesterol,
    thyroid :=
      if aggregatedMetrics.thyroid = none ∧ metrics.thyroid ≠ none
      then metrics.thyroid else aggregatedMetrics.thyroid }

/-- The initial value of `aggregatedMetrics`. -/
def emptyMetrics : Metrics :=
  { bp_systolic := none, bp_diastolic := none, diabetes := none, cholesterol := none,
    thyroid := none }

/-- A record added to the collection `medicalReports`. -/
structure Report where
  fileName : JSString
  extractedText : JSString
  metrics : Metrics
  deriving DecidableEq, Repr

/-- The callback that `handleSubmit` runs for one file, from the moment its
`extractTextFromFile` has settled: a failed extraction is caught and changes
nothing; a successful one is merged, then the file is uploaded and its report
written, and a failure there is caught as well. -/
def processFile (extract : SubmittedFile → Except JSString Extraction)
    (acc : Metrics × List Report) (file : SubmittedFile) : Metrics × List Report :=
  match extract file with
  | Except.error _ => acc
  | Except.ok r =>
    (mergeMetrics acc.1 r.metrics,
     if file.uploadOk then
       acc.2 ++ [{ fileName := file.name, extractedText := r.text, metrics := r.metrics }]
     else acc.2)

/-- The state that `handleSubmit` leaves behind: the flags of the page and what
was written to the store (`saved` is the metrics written by `setDoc`). -/
structure SubmitResult where
  success : Bool
  error : JSString
  extractedMetrics : Option Metrics
  saved : Option Metrics
  reports : List Report
  deriving DecidableEq, Repr

/-- The function `handleSubmit` of `src/pages/HealthAnalysis.js`.  `extract` is
the imported `extractTextFromFile`; `medicalFiles` lists the files in the order
in which their extraction settles (the callbacks of `Promise.all` run one at a
time, each merge being one uninterrupted block); `user` is `auth.currentUser`
and `setDocOk` tells whether the final `setDoc` succeeds. -/
def handleSubmit (extract : SubmittedFile → Except JSString Extraction)
    (user : Option JSString) (medicalFiles : List SubmittedFile) (setDocOk : Bool) :
    SubmitResult :=
  match user with
  | none =>
    { success := false, error := js "Error submitting health analysis. Please try again.",
      extractedMetrics := none, saved := none, reports := [] }
  | some _ =>
    let done := medicalFiles.foldl (processFile extract) (emptyMetrics, [])
    if setDocOk then
      { success := true, error := [], extractedMetrics := some done.1, saved := some done.1,
        reports := done.2 }
    else
      { success := false, error := js "Error submitting health analysis. Please try again.",
        extractedMetrics := none, saved := none, reports := done.2 }

/-- The metric sets of the files whose extraction succeeds, in the order of the list. -/
def metricSets (extract : SubmittedFile → Except JSString Extraction)
    (files : List SubmittedFile) : List Metrics :=
  files.filterMap (fun f =>
    match extract f with
    | Except.ok r => some r.metrics
    | Except.error _ => none)

/-- An uploaded file that passes `validatePDF` with `samplePdfBytes`. -/
def samplePdfFile : UploadedFile :=
  { mimetype := js "application/pdf", originalFilename := js "Report.PDF", size := 2048 }

/-- The first bytes of a PDF file. -/
def samplePdfBytes : List Nat := js "%PDF-1.4 sample"

/-- A request whose valid PDF neither parser can read. -/
def brokenPdfWorld : ParseWorld :=
  { form := Except.ok (some samplePdfFile),
    fileExists := true,
    readFile := Except.ok samplePdfBytes,
    pdfParse := Except.error (js "bad XRef entry"),
    pdfjs := Except.error (js "Invalid PDF structure") }

/-- A document whose declared content type is `Application/PDF`. -/
def upperCasePdf : SubmittedFile :=
  { name := js "report.pdf",
    type := js "Application/PDF",
    size := 2048,
    api := Except.ok { ok := true, error := none, text := some (js "BP: 120/80"), hasInfo := true },
    ocr := { createWorker := Except.ok (), createObjectURL := Except.ok (),
             recognize := Except.ok (js "BP: 120/80"),
             terminate := Except.ok () },
    uploadOk := true }

/-- An atom that does not name a decimal digit: it cannot tell two digits apart. -/
def Atom.digitFree : Atom → Bool
  | Atom.lit c => !isDigit c
  | Atom.digit => true
  | Atom.space => true
  | Atom.oneOf cs => cs.all (fun c => !isDigit c)

/-- A pattern none of whose atoms names a decimal digit. -/
def Regex.digitFree : Regex → Bool
  | Regex.empty => true
  | Regex.atom a => a.digitFree
  | Regex.seq r s => r.digitFree && s.digitFree
  | Regex.alt r s => r.digitFree && s.digitFree
  | Regex.opt r => r.digitFree
  | Regex.rep a _ _ => a.digitFree
  | Regex.group _ r => r.digitFree

/-- A renaming of the code units that sends digits to digits and moves nothing else. -/
def DigitRenaming (f : Nat → Nat) : Prop :=
  ∀ x, if isDigit x then isDigit (f x) = true else f x = x

/-- The image of a matcher state under a renaming of the code units. -/
def MState.rename (f : Nat → Nat) (st : MState) : MState :=
  { rest := st.rest.map f, caps := fun j => (st.caps j).map (List.map f) }

/-- The image of a match array under a renaming of the code units. -/
def renameArray (f : Nat → Nat) (m : MatchArray) : MatchArray :=
  fun j => (m j).map (List.map f)

/-- The renaming that sends the digit `k` to the `k`-th element of `ds`. -/
def renameBy (ds : List Nat) (x : Nat) : Nat :=
  if isDigit x then ds.getD (x - 48) x else x

/-- The indices of the capturing groups of a pattern. -/
def Regex.groups : Regex → List Nat
  | Regex.empty => []
  | Regex.atom _ => []
  | Regex.seq r s => r.groups ++ s.groups
  | Regex.alt r s => r.groups ++ s.groups
  | Regex.opt r => r.groups
  | Regex.rep _ _ _ => []
  | Regex.group i r => i :: r.groups

/-- Whether `label` occurs in `text` up to letter case. -/
def containsCI (text label : JSString) : Bool :=
  includes (text.map canonicalize) (label.map canonicalize)

/-- A text with two glucose readings, the second being `Blood Glucose: 95 mg/dl`. -/
def twoGlucoseReadings : JSString :=
  js "FBS: 110 mg/dl, Blood Glucose: 95 mg/dl"

/-- A PDF document for which `/api/parse` answers with the text `text`. -/
def pdfReport (name text : JSString) : SubmittedFile :=
  { name := name,
    type := js "application/pdf",
    size := 2048,
    api := Except.ok { ok := true, error := none, text := some text, hasInfo := true },
    ocr := { createWorker := Except.ok (), createObjectURL := Except.ok (),
             recognize := Except.ok [], terminate := Except.ok () },
    uploadOk := true }

/-- An uploaded file declared as a PDF whose name does not end with `.pdf`. -/
def textNamedPdf : UploadedFile :=
  { mimetype := js "application/pdf", originalFilename := js "report.txt", size := 2048 }

/-- The text of the fallback strategy in the words of the specification: the
tokens of a page joined with single spaces, the pages joined with a newline,
the whole trimmed. -/
def fallbackTextSpec (pages : List (List JSString)) : JSString :=
  trim (join (js "\n") (pages.map (join (js " "))))

/-- A document whose declared content type is `text/plain`. -/
def plainTextFile : SubmittedFile :=
  { name := js "notes.txt",
    type := js "text/plain",
    size := 120,
    api := Except.ok { ok := true, error := none, text := some (js "BP: 150/95"), hasInfo := true },
    ocr := { createWorker := Except.ok (), createObjectURL := Except.ok (),
             recognize := Except.ok (js "BP: 150/95"),
             terminate := Except.ok () },
    uploadOk := true }

/-- Whether the extraction of a file succeeds. -/
def extractionSucceeds (extract : SubmittedFile → Except JSString Extraction)
    (file : SubmittedFile) : Bool :=
  match extract file with
  | Except.ok _ => true
  | Except.error _ => false

/-- An image whose recognition throws after the engine was acquired. -/
def unreadableImage : SubmittedFile :=
  { name := js "scan.png",
    type := js "image/png",
    size := 4096,
    api := Except.error (js "not a PDF"),
    ocr := { createWorker := Except.ok (), createObjectURL := Except.ok (),
             recognize := Except.error (js "recognition failed"),
             terminate := Except.ok () },
    uploadOk := true }

/-- An object with the fields of an image file that is not a `Blob`:
`URL.createObjectURL` throws a `TypeError` for it. -/
def notABlob : SubmittedFile :=
  { name := js "scan.png",
    type := js "image/png",
    size := 4096,
    api := Except.error (js "not a PDF"),
    ocr := { createWorker := Except.ok (),
             createObjectURL := Except.error
               (js "Failed to execute 'createObjectURL' on 'URL': Overload resolution failed."),
             recognize := Except.ok (js "BP: 120/80"),
             terminate := Except.ok () },
    uploadOk := true }

/-- A value of `formData`: the text of an input, or the selected file. -/
inductive FormValue where
  | text (value : JSString)
  | file (value : SubmittedFile)

/-- The state of the component `HealthAnalysis`: its `useState` cells, and
`stored`, the metrics of the last record that `setDoc` wrote. -/
structure PageState where
  userName : JSString
  formData : List (JSString × FormValue)
  medicalFiles : List SubmittedFile
  isLoading : Bool
  error : JSString
  success : Bool
  extractedMetrics : Option Metrics
  uploading : Bool
  uploadProgress : Nat
  uploadStatus : JSString
  stored : Option Metrics

/-- The state of the component when it is mounted. -/
def initialPage : PageState :=
  { userName := [],
    formData := [(js "age", FormValue.text []), (js "height", FormValue.text []),
                 (js "weight", FormValue.text []),
                 (js "activityLevel", FormValue.text (js "Sedentary"))],
    medicalFiles := [],
    isLoading := false,
    error := [],
    success := false,
    extractedMetrics := none,
    uploading := false,
    uploadProgress := 0,
    uploadStatus := [],
    stored := none }

/-- The update `{ ...prev, [name]: value }` of `formData`. -/
def setField (formData : List (JSString × FormValue)) (name : JSString) (value : FormValue) :
    List (JSString × FormValue) :=
  formData.filter (fun kv => kv.1 != name) ++ [(name, value)]

/-- What the callback of `onAuthStateChanged` finds. -/
inductive AuthOutcome where
  | noUser
  | found (name : JSString)
  | notFound
  | failed

/-- The events of the page: the three handlers and the callback of the effect.  For
`submit`, `user` is `auth.currentUser` and `setDocOk` tells whether the final
`setDoc` succeeds. -/
inductive PageEvent where
  | inputChange (name value : JSString)
  | fileChange (file : Option SubmittedFile)
  | submit (user : Option JSString) (setDocOk : Bool)
  | authChanged (outcome : AuthOutcome)

/-- The state in which a handler, run to its end, leaves the page. -/
def pageStep (s : PageState) : PageEvent → PageState
  | PageEvent.inputChange name value =>
    { s with formData := setField s.formData name (FormValue.text value) }
  | PageEvent.fileChange none => s
  | PageEvent.fileChange (some file) =>
    { s with uploading := false, uploadProgress := 100,
             uploadStatus := js "File uploaded successfully!",
             formData := setField s.formData (js "medicalReport") (FormValue.file file) }
  | PageEvent.submit user setDocOk =>
    let r := handleSubmit (fun f => (extractTextFromFile f).1) user s.medicalFiles setDocOk
    { s with isLoading := false, error := r.error, success := r.success,
             extractedMetrics := r.extractedMetrics,
             stored := match r.saved with
               | some m => some m
               | none => s.stored }
  | PageEvent.authChanged AuthOutcome.noUser => s
  | PageEvent.authChanged (AuthOutcome.found name) => { s with userName := name }
  | PageEvent.authChanged AuthOutcome.notFound =>
    { s with error := js "User data not found. Please try logging in again." }
  | PageEvent.authChanged AuthOutcome.failed =>
    { s with error := js "Error loading user data. Please try again." }

/-- The state of the page after a sequence of events. -/
def runPage (events : List PageEvent) : PageState :=
  events.foldl pageStep initialPage

/-- The value passed as `text` to `extractHealthMetrics`, seen through the only
use the function makes of it: what `text.match(pattern)` does for each pattern,
returning a match array or `null`, or throwing. -/
abbrev TextValue := Regex → Except JSString (Option MatchArray)

/-- A string as a text value: `match` never throws on a string. -/
def stringValue (text : JSString) : TextValue :=
  fun p => Except.ok (jsMatch true p text)

/-- The loop over the patterns of one family on a text value: the match array of
the first pattern that matches, `null` when none does; an exception thrown by
`match` leaves the loop. -/
def firstMatchOf (text : TextValue) : List Regex → Except JSString (Option MatchArray)
  | [] => Except.ok none
  | p :: ps =>
    match text p with
    | Except.error e => Except.error e
    | Except.ok (some m) => Except.ok (some m)
    | Except.ok none => firstMatchOf text ps

/-- The function `extractHealthMetrics` on any value passed as `text`: the four
loops stand in one `try` block, whose `catch` logs the error; `metrics` is
returned as it is when the exception is thrown. -/
def extractHealthMetricsOf (text : TextValue) : Metrics :=
  let metrics : Metrics := emptyMetrics
  match firstMatchOf text bpPatterns with
  | Except.error _ => metrics
  | Except.ok bp =>
    let metrics :=
      match bp with
      | some m => { metrics with bp_systolic := some (parseIntArg (m 1)),
                                 bp_diastolic := some (parseIntArg (m 2)) }
      | none => metrics
    match firstMatchOf text diabetesPatterns with
    | Except.error _ => metrics
    | Except.ok d =>
      let metrics :=
        match d with
        | some m => { metrics with diabetes := some (parseFloatArg (m 1)) }
        | none => metrics
      match firstMatchOf text cholesterolPatterns with
      | Except.error _ => metrics
      | Except.ok c =>
        let metrics :=
          match c with
          | some m => { metrics with cholesterol := some (parseFloatArg (m 1)) }
          | none => metrics
        match firstMatchOf text thyroidPatterns with
        | Except.error _ => metrics
        | Except.ok t =>
          match t with
          | some m => { metrics with thyroid := some (parseFloatArg (m 1)) }
          | none => metrics

/-- A value whose `match` throws for the blood-pressure patterns and answers as
the string `Blood Glucose: 95 mg/dl` for all the others. -/
def throwingOnBp : TextValue :=
  fun p =>
    if p ∈ bpPatterns then Except.error (js "boom")
    else stringValue (js "Blood Glucose: 95 mg/dl") p

/-- The renaming that exchanges the code units `a` and `b`. -/
def swapUnits (a b x : Nat) : Nat :=
  if x = a then b else if x = b then a else x

/-! ## Properties -/


theorem includes_iff (s p : JSString) :
    includes s p = true ↔ ∃ a c, s = a ++ p ++ c := by
  induction s with
  | nil =>
    simp only [includes, List.isPrefixOf_iff_prefix]
    constructor
    · intro h
      have : p = [] := List.prefix_nil.mp h
      exact ⟨[], [], by simp [this]⟩
    · rintro ⟨a, c, h⟩
      have h1 : a ++ p ++ c = [] := h.symm
      simp only [List.append_eq_nil] at h1
      rw [h1.1.2]
  | cons x xs ih =>
    simp only [includes, Bool.or_eq_true, ih, List.isPrefixOf_iff_prefix]
    constructor
    · rintro (⟨t, ht⟩ | ⟨a, c, h⟩)
      · exact ⟨[], t, by simp [ht]⟩
      · exact ⟨x :: a, c, by simp [h]⟩
    · rintro ⟨a, c, h⟩
      cases a with
      | nil => left; exact ⟨c, by simpa using h.symm⟩
      | cons y a =>
        right
        simp only [List.cons_append, List.cons.injEq] at h
        exact ⟨a, c, h.2⟩

theorem endsWith_iff (s p : JSString) : endsWith s p = true ↔ ∃ a, s = a ++ p := by
  unfold endsWith
  rw [List.isSuffixOf_iff_suffix]
  constructor
  · rintro ⟨t, ht⟩; exact ⟨t, ht.symm⟩
  · rintro ⟨t, ht⟩; exact ⟨t, ht.symm⟩

theorem startsWith_iff (s p : JSString) : startsWith s p = true ↔ ∃ a, s = p ++ a := by
  unfold startsWith
  rw [List.isPrefixOf_iff_prefix]
  constructor
  · rintro ⟨t, ht⟩; exact ⟨t, ht.symm⟩
  · rintro ⟨t, ht⟩; exact ⟨t, ht.symm⟩

/-- C3. `validatePDF(file, buffer)` returns `isValid = true` if and only if the file is
present, its mimetype is exactly `application/pdf`, its original filename lower-cased ends
with `.pdf`, its declared size is not 0, the buffer is present with length at least 8, and
the first 8 bytes read as ASCII contain `%PDF-`; in every other case it returns
`isValid = false` together with a non-empty error message. -/
theorem validatePDF_isValid_iff (file : Option UploadedFile) (buffer : Option (List Nat)) :
    ((validatePDF file buffer).isValid = true ↔
      ∃ f b, file = some f ∧ buffer = some b ∧
        f.mimetype = js "application/pdf" ∧
        (∃ a, toLowerCase f.originalFilename = a ++ js ".pdf") ∧
        f.size ≠ 0 ∧
        8 ≤ b.length ∧
        (∃ a c, asciiString (b.take 8) = a ++ js "%PDF-" ++ c)) ∧
    ((validatePDF file buffer).isValid ≠ true →
      (validatePDF file buffer).isValid = false ∧
        ∃ msg, (validatePDF file buffer).error = some msg ∧ msg ≠ []) := by
  cases file with
  | none => simp [validatePDF, js, utf16Char]
  | some f =>
    cases buffer with
    | none =>
      simp only [validatePDF]
      split_ifs <;> simp_all [js, utf16Char]
    | some b =>
      simp only [validatePDF, ← includes_iff, ← endsWith_iff]
      split_ifs <;> simp_all [js, utf16Char]

/-- A field that `mergeMetrics` fills first-wins is, after merging a whole
list, the first non-null value met. -/
theorem foldl_merge_field (f : Metrics → Option JSNumber)
    (hf : ∀ a m, f (mergeMetrics a m) = (f a).orElse (fun _ => f m))
    (ms : List Metrics) (agg : Metrics) :
    f (ms.foldl mergeMetrics agg) = (f agg).orElse (fun _ => ms.findSome? f) := by
  induction ms generalizing agg with
  | nil => cases h : f agg <;> simp [h]
  | cons m ms ih =>
    rw [List.foldl_cons, ih, hf]
    cases h1 : f agg <;> cases h2 : f m <;> simp [List.findSome?, h2]

theorem merge_bp_systolic (a m : Metrics) :
    (mergeMetrics a m).bp_systolic = (a.bp_systolic).orElse (fun _ => m.bp_systolic) := by
  cases h1 : a.bp_systolic <;> cases h2 : m.bp_systolic <;> simp [mergeMetrics, h1, h2]

theorem merge_bp_diastolic (a m : Metrics) :
    (mergeMetrics a m).bp_diastolic = (a.bp_diastolic).orElse (fun _ => m.bp_diastolic) := by
  cases h1 : a.bp_diastolic <;> cases h2 : m.bp_diastolic <;> simp [mergeMetrics, h1, h2]

theorem merge_diabetes (a m : Metrics) :
    (mergeMetrics a m).diabetes = (a.diabetes).orElse (fun _ => m.diabetes) := by
  cases h1 : a.diabetes <;> cases h2 : m.diabetes <;> simp [mergeMetrics, h1, h2]

theorem merge_cholesterol (a m : Metrics) :
    (mergeMetrics a m).cholesterol = (a.cholesterol).orElse (fun _ => m.cholesterol) := by
  cases h1 : a.cholesterol <;> cases h2 : m.cholesterol <;> simp [mergeMetrics, h1, h2]

theorem merge_thyroid (a m : Metrics) :
    (mergeMetrics a m).thyroid = (a.thyroid).orElse (fun _ => m.thyroid) := by
  cases h1 : a.thyroid <;> cases h2 : m.thyroid <;> simp [mergeMetrics, h1, h2]

/-- Merging a list of metric sets into the empty aggregate keeps, field by
field, the first non-null value of the list. -/
theorem foldl_mergeMetrics (ms : List Metrics) :
    ms.foldl mergeMetrics emptyMetrics =
      { bp_systolic := ms.findSome? (·.bp_systolic),
        bp_diastolic := ms.findSome? (·.bp_diastolic),
        diabetes := ms.findSome? (·.diabetes),
        cholesterol := ms.findSome? (·.cholesterol),
        thyroid := ms.findSome? (·.thyroid) } := by
  have h1 : (ms.foldl mergeMetrics emptyMetrics).bp_systolic = ms.findSome? (·.bp_systolic) :=
    foldl_merge_field (·.bp_systolic) merge_bp_systolic ms emptyMetrics
  have h2 : (ms.foldl mergeMetrics emptyMetrics).bp_diastolic = ms.findSome? (·.bp_diastolic) :=
    foldl_merge_field (·.bp_diastolic) merge_bp_diastolic ms emptyMetrics
  have h3 : (ms.foldl mergeMetrics emptyMetrics).diabetes = ms.findSome? (·.diabetes) :=
    foldl_merge_field (·.diabetes) merge_diabetes ms emptyMetrics
  have h4 : (ms.foldl mergeMetrics emptyMetrics).cholesterol = ms.findSome? (·.cholesterol) :=
    foldl_merge_field (·.cholesterol) merge_cholesterol ms emptyMetrics
  have h5 : (ms.foldl mergeMetrics emptyMetrics).thyroid = ms.findSome? (·.thyroid) :=
    foldl_merge_field (·.thyroid) merge_thyroid ms emptyMetrics
  have eta : ∀ r : Metrics,
      r = ⟨r.bp_systolic, r.bp_diastolic, r.diabetes, r.cholesterol, r.thyroid⟩ :=
    fun r => by cases r; rfl
  refine (eta _).trans ?_
  rw [h1, h2, h3, h4, h5]

theorem foldl_processFile (extract : SubmittedFile → Except JSString Extraction)
    (files : List SubmittedFile) (acc : Metrics × List Report) :
    (files.foldl (processFile extract) acc).1 =
      (metricSets extract files).foldl mergeMetrics acc.1 := by
  induction files generalizing acc with
  | nil => rfl
  | cons f fs ih =>
    rw [List.foldl_cons, ih]
    unfold metricSets processFile
    cases h : extract f <;> simp [List.filterMap_cons, h]

/-- What `handleSubmit` writes for a logged-in user when the final write succeeds. -/
theorem handleSubmit_saved (extract : SubmittedFile → Except JSString Extraction)
    (u : JSString) (files : List SubmittedFile) :
    (handleSubmit extract (some u) files true).saved =
      some { bp_systolic := (metricSets extract files).findSome? (·.bp_systolic),
             bp_diastolic := (metricSets extract files).findSome? (·.bp_diastolic),
             diabetes := (metricSets extract files).findSome? (·.diabetes),
             cholesterol := (metricSets extract files).findSome? (·.cholesterol),
             thyroid := (metricSets extract files).findSome? (·.thyroid) } := by
  simp only [handleSubmit, if_true, foldl_processFile, foldl_mergeMetrics]

/-- C1. For every extractor and every list of files, taken in the order in which their
extraction settles, `handleSubmit` (user logged in, final write succeeding) completes as a
success and writes, for each of the five fields, the first non-null value of that field
among the metric sets of the files whose extraction succeeded, and null when there is none;
in particular, when every metric set is all-null (or the batch is empty), the five fields
written are null and the submission is still a success. -/
theorem handleSubmit_first_non_null (extract : SubmittedFile → Except JSString Extraction)
    (u : JSString) (files : List SubmittedFile) :
    (handleSubmit extract (some u) files true).success = true ∧
    (handleSubmit extract (some u) files true).saved =
      some { bp_systolic := (metricSets extract files).findSome? (·.bp_systolic),
             bp_diastolic := (metricSets extract files).findSome? (·.bp_diastolic),
             diabetes := (metricSets extract files).findSome? (·.diabetes),
             cholesterol := (metricSets extract files).findSome? (·.cholesterol),
             thyroid := (metricSets extract files).findSome? (·.thyroid) } ∧
    ((∀ m ∈ metricSets extract files, m = emptyMetrics) →
      (handleSubmit extract (some u) files true).saved = some emptyMetrics ∧
      (handleSubmit extract (some u) files true).success = true) := by
  refine ⟨by simp [handleSubmit], handleSubmit_saved extract u files, ?_⟩
  intro h
  refine ⟨?_, by simp [handleSubmit]⟩
  rw [handleSubmit_saved]
  have none_of : ∀ (f : Metrics → Option JSNumber), f emptyMetrics = none →
      (metricSets extract files).findSome? f = none := by
    intro f hf
    rw [List.findSome?_eq_none_iff]
    intro m hm
    rw [h m hm, hf]
  simp only [none_of (·.bp_systolic) rfl, none_of (·.bp_diastolic) rfl, none_of (·.diabetes) rfl,
    none_of (·.cholesterol) rfl, none_of (·.thyroid) rfl, emptyMetrics]

theorem handleSubmit_first_non_null_witness :
    (handleSubmit (fun f => (extractTextFromFile f).1) (some (js "u1")) [upperCasePdf]
        true).saved = some emptyMetrics ∧
    (handleSubmit (fun f => (extractTextFromFile f).1) (some (js "u1")) [upperCasePdf]
        true).success = true :=
  (handleSubmit_first_non_null (fun f => (extractTextFromFile f).1) (js "u1")
    [upperCasePdf]).2.2 (by decide)

theorem trim_eq (s : JSString) :
    trim s = List.rdropWhile isWhiteSpace (s.dropWhile isWhiteSpace) := rfl

theorem dropWhile_rdropWhile_dropWhile (p : Nat → Bool) (s : List Nat) :
    List.dropWhile p (List.rdropWhile p (List.dropWhile p s)) =
      List.rdropWhile p (List.dropWhile p s) := by
  rw [List.dropWhile_eq_self_iff]
  intro hl
  obtain ⟨t, ht⟩ := List.rdropWhile_prefix p (l := List.dropWhile p s)
  generalize hb : List.rdropWhile p (List.dropWhile p s) = b at *
  cases b with
  | nil => simp at hl
  | cons x b =>
    have h := List.head?_dropWhile_not p s
    rw [← ht] at h
    simpa using h

/-- Trimming twice is trimming once. -/
theorem trim_trim (s : JSString) : trim (trim s) = trim s := by
  rw [trim_eq (trim s), trim_eq s, dropWhile_rdropWhile_dropWhile, List.rdropWhile_idempotent]

theorem js_POST_ne : ¬ (js "POST" ≠ js "POST") := by simp

/-- The handler on a POST request whose file is on disk, readable and valid. -/
theorem handler_of_valid (w : ParseWorld) (file : UploadedFile) (buf : List Nat)
    (hform : w.form = Except.ok (some file)) (hex : w.fileExists = true)
    (hread : w.readFile = Except.ok buf)
    (hvalid : (validatePDF (some file) (some buf)).isValid = true) :
    handler (js "POST") w = ((parseBoth w).1, Call.validatePDF :: (parseBoth w).2) := by
  unfold handler
  rw [if_neg js_POST_ne]
  simp only [hform, hex, hread, hvalid]
  rfl

/-- The handler on a POST request with a file when validation is not reached or fails. -/
theorem handler_of_invalid (w : ParseWorld) (file : UploadedFile)
    (hform : w.form = Except.ok (some file))
    (h : ¬ (w.fileExists = true ∧ ∃ buf, w.readFile = Except.ok buf ∧
        (validatePDF (some file) (some buf)).isValid = true)) :
    (handler (js "POST") w).2.count Call.pdfParse = 0 ∧
    (handler (js "POST") w).2.count Call.parsePDFWithFallback = 0 := by
  unfold handler
  rw [if_neg js_POST_ne]
  simp only [hform]
  cases hex : w.fileExists with
  | false => simp
  | true =>
    cases hread : w.readFile with
    | error e => simp
    | ok buf =>
      have hv : (validatePDF (some file) (some buf)).isValid = false := by
        cases hv : (validatePDF (some file) (some buf)).isValid with
        | false => rfl
        | true => exact absurd ⟨hex, buf, hread, hv⟩ h
      simp [hv]

theorem primaryParse_error_iff (w : ParseWorld) :
    (∃ e, primaryParse w = Except.error e) ↔
      ((∃ e, w.pdfParse = Except.error e) ∨ w.pdfParse = Except.ok none ∨
          ∃ d, w.pdfParse = Except.ok (some d) ∧
            (d.text = none ∨ ∃ t, d.text = some t ∧ trim t = [])) := by
  unfold primaryParse
  cases hp : w.pdfParse with
  | error e => simp
  | ok d =>
    cases d with
    | none => simp
    | some d =>
      cases ht : d.text with
      | none => simp [ht]
      | some t =>
        by_cases h : trim t = []
        · simp [ht, h]
        · have : t ≠ [] := fun h0 => h (by rw [h0]; rfl)
          simp [ht, h, this]

/-- C4. For every POST request that carries an uploaded file: when `validatePDF` is reached
and accepts the file, `pdfParse` is invoked exactly once, and `parsePDFWithFallback` is
invoked exactly once if the primary parser failed (it threw, returned `null`, or returned a
missing text or a text that is empty after trimming) and never if the primary parser
yielded a text that is non-empty after trimming; when the file is not accepted, neither
parser is invoked. -/
theorem handler_parser_calls (w : ParseWorld) (file : UploadedFile)
    (hform : w.form = Except.ok (some file)) :
    ((w.fileExists = true ∧ ∃ buf, w.readFile = Except.ok buf ∧
        (validatePDF (some file) (some buf)).isValid = true) →
      (handler (js "POST") w).2.count Call.pdfParse = 1 ∧
      (((∃ e, w.pdfParse = Except.error e) ∨ w.pdfParse = Except.ok none ∨
          ∃ d, w.pdfParse = Except.ok (some d) ∧
            (d.text = none ∨ ∃ t, d.text = some t ∧ trim t = [])) →
        (handler (js "POST") w).2.count Call.parsePDFWithFallback = 1) ∧
      ((∃ d t, w.pdfParse = Except.ok (some d) ∧ d.text = some t ∧ trim t ≠ []) →
        (handler (js "POST") w).2.count Call.parsePDFWithFallback = 0)) ∧
    (¬ (w.fileExists = true ∧ ∃ buf, w.readFile = Except.ok buf ∧
        (validatePDF (some file) (some buf)).isValid = true) →
      (handler (js "POST") w).2.count Call.pdfParse = 0 ∧
      (handler (js "POST") w).2.count Call.parsePDFWithFallback = 0) := by
  refine ⟨?_, handler_of_invalid w file hform⟩
  rintro ⟨hex, buf, hread, hvalid⟩
  rw [handler_of_valid w file buf hform hex hread hvalid, ← primaryParse_error_iff]
  have hok : (∃ d t, w.pdfParse = Except.ok (some d) ∧ d.text = some t ∧ trim t ≠ []) →
      ¬ ∃ e, primaryParse w = Except.error e := by
    rintro ⟨d, t, hd, ht, hne⟩
    rw [primaryParse_error_iff]
    simp [hd, ht, hne]
  unfold parseBoth
  cases hp : primaryParse w with
  | ok r => simp
  | error e =>
    have : ∃ e, primaryParse w = Except.error e := ⟨e, hp⟩
    cases hf : fallbackParse w with
    | ok r => simpa [hp] using fun h => hok h this
    | error e2 => simpa [hp] using fun h => hok h this

theorem handler_parser_calls_witness :
    (handler (js "POST") brokenPdfWorld).2.count Call.pdfParse = 1 ∧
    (handler (js "POST") brokenPdfWorld).2.count Call.parsePDFWithFallback = 1 :=
  have h := (handler_parser_calls brokenPdfWorld samplePdfFile rfl).1
    ⟨rfl, samplePdfBytes, rfl, by decide⟩
  ⟨h.1, h.2.1 (Or.inl ⟨_, rfl⟩)⟩

/-- The check of the handler on the data of `parsePDFWithFallback` never fails:
the fallback strategy fails exactly when `parsePDFWithFallback` throws. -/
theorem fallbackParse_error_iff (w : ParseWorld) (m : JSString) :
    fallbackParse w = Except.error m ↔ parsePDFWithFallback w.pdfjs = Except.error m := by
  unfold fallbackParse
  cases h : parsePDFWithFallback w.pdfjs with
  | error e => simp
  | ok d =>
    unfold parsePDFWithFallback at h
    cases hj : w.pdfjs with
    | error e => simp [hj] at h
    | ok pages =>
      simp only [hj] at h
      cases hr : readPages [] pages with
      | error e => simp [hr] at h
      | ok full =>
        simp only [hr] at h
        split_ifs at h with h0
        have hd : d = { text := some (trim full), numpages := pages.length } := by
          injection h with h; exact h.symm
        have hne : trim (trim full) ≠ [] := by
          rw [trim_trim]; exact h0
        simp [hd, h0, hne]

/-- C5. For every valid PDF request in which the primary strategy fails with message `m1`
(the message thrown by `pdfParse`, or `No text found in PDF` when it returns no text) and
`parsePDFWithFallback` throws with message `m2`, the handler answers with status 400, error
`Failed to parse PDF with both methods`, `details.primary = m1` and
`details.fallback = m2`. -/
theorem handler_both_fail (w : ParseWorld) (file : UploadedFile) (buf : List Nat)
    (m1 m2 : JSString)
    (hform : w.form = Except.ok (some file)) (hex : w.fileExists = true)
    (hread : w.readFile = Except.ok buf)
    (hvalid : (validatePDF (some file) (some buf)).isValid = true)
    (hprimary : w.pdfParse = Except.error m1 ∨
      (m1 = js "No text found in PDF" ∧
        (w.pdfParse = Except.ok none ∨
          ∃ d, w.pdfParse = Except.ok (some d) ∧
            (d.text = none ∨ ∃ t, d.text = some t ∧ trim t = []))))
    (hfallback : parsePDFWithFallback w.pdfjs = Except.error m2) :
    (handler (js "POST") w).1 =
      { status := 400,
        body := Body.parseFailure (js "Failed to parse PDF with both methods") m1 m2 } := by
  rw [handler_of_valid w file buf hform hex hread hvalid]
  have hp : primaryParse w = Except.error m1 := by
    unfold primaryParse
    rcases hprimary with h | ⟨rfl, h | ⟨d, hd, h | ⟨t, ht, htrim⟩⟩⟩
    · simp [h]
    · simp [h]
    · simp [hd, h]
    · simp [hd, ht, htrim]
  have hf : fallbackParse w = Except.error m2 := (fallbackParse_error_iff w m2).2 hfallback
  simp [parseBoth, hp, hf]

theorem handler_both_fail_witness :
    (handler (js "POST") brokenPdfWorld).1 =
      { status := 400,
        body := Body.parseFailure (js "Failed to parse PDF with both methods")
          (js "bad XRef entry") (js "Invalid PDF structure") } :=
  handler_both_fail brokenPdfWorld samplePdfFile samplePdfBytes _ _ rfl rfl rfl (by decide)
    (Or.inl rfl) rfl

theorem extractTextFromPDF_events (file : SubmittedFile) :
    (extractTextFromPDF file).2 = [Event.extractTextFromPDF] ∨
    (extractTextFromPDF file).2 = [Event.extractTextFromPDF, Event.fetchParse] := by
  have h : (extractTextFromPDFTry file).2 = [] ∨ (extractTextFromPDFTry file).2 = [Event.fetchParse] := by
    unfold extractTextFromPDFTry
    simp only []
    split_ifs <;> (try split) <;> (try split_ifs) <;> (try split) <;> (try split_ifs) <;> simp
  unfold extractTextFromPDF
  generalize extractTextFromPDFTry file = r at *
  obtain ⟨r1, evs⟩ := r
  cases r1 with
  | ok t => simpa using h
  | error e =>
    simp only []
    split_ifs <;> simpa using h

theorem extractTextFromImage_events (file : SubmittedFile) :
    ∃ evs, (extractTextFromImage file).2 = Event.extractTextFromImage :: evs ∧
      Event.extractTextFromPDF ∉ evs ∧ Event.extractHealthMetrics ∉ evs := by
  have h : Event.extractTextFromPDF ∉ (extractTextFromImageTry file).2 ∧
      Event.extractHealthMetrics ∉ (extractTextFromImageTry file).2 := by
    unfold extractTextFromImageTry
    simp only []
    split_ifs
    · simp
    · simp
    · cases file.ocr.createWorker with
      | error e => simp
      | ok v =>
        cases file.ocr.createObjectURL with
        | error e => simp
        | ok v1 => cases file.ocr.terminate <;> simp
  unfold extractTextFromImage
  generalize extractTextFromImageTry file = r at *
  obtain ⟨r1, evs⟩ := r
  cases r1 with
  | ok t => exact ⟨evs, rfl, h⟩
  | error e => exact ⟨evs, rfl, h⟩

/-- C6, counterexample. A document whose declared content type is `Application/PDF`, which
is not exactly `application/pdf`, is routed to the PDF extractor, and fails there with a
message that is not `Unsupported file type`. -/
theorem extractTextFromFile_mixed_case_routed :
    upperCasePdf.type ≠ js "application/pdf" ∧
    Event.extractTextFromPDF ∈ (extractTextFromFile upperCasePdf).2 ∧
    extractTextFromFile upperCasePdf =
      (Except.error (js "PDF processing failed: Invalid file type. Please upload a PDF file."),
       [Event.extractTextFromPDF]) := by
  decide

theorem not_startsWith_image_pdf : startsWith (js "application/pdf") (js "image/") = false := by
  decide

/-- C6, amended. `extractTextFromFile` routes a document to the PDF extractor if and only
if its declared content type, lower-cased, is `application/pdf`, to the image extractor if
and only if its declared content type, lower-cased, starts with `image/`, and for every
other content type it fails with `Unsupported file type` without invoking either extractor
and without running metric extraction. -/
theorem extractTextFromFile_routing (file : SubmittedFile) :
    (Event.extractTextFromPDF ∈ (extractTextFromFile file).2 ↔
      toLowerCase file.type = js "application/pdf") ∧
    (Event.extractTextFromImage ∈ (extractTextFromFile file).2 ↔
      ∃ a, toLowerCase file.type = js "image/" ++ a) ∧
    ((toLowerCase file.type ≠ js "application/pdf" ∧
        ¬ ∃ a, toLowerCase file.type = js "image/" ++ a) →
      extractTextFromFile file = (Except.error (js "Unsupported file type"), [])) := by
  simp only [← startsWith_iff]
  unfold extractTextFromFile
  simp only []
  by_cases hpdf : toLowerCase file.type = js "application/pdf"
  · rw [if_pos hpdf]
    have himg : startsWith (toLowerCase file.type) (js "image/") = false := by
      rw [hpdf]; exact not_startsWith_image_pdf
    rcases extractTextFromPDF_events file with h | h <;>
      · generalize extractTextFromPDF file = r at *
        obtain ⟨r1, evs⟩ := r
        cases r1 <;> simp_all
  · rw [if_neg hpdf]
    by_cases himg : startsWith (toLowerCase file.type) (js "image/") = true
    · rw [if_pos himg]
      obtain ⟨evs, h, h1, h2⟩ := extractTextFromImage_events file
      generalize extractTextFromImage file = r at *
      obtain ⟨r1, evs1⟩ := r
      cases r1 <;> simp_all
    · rw [if_neg himg]
      simp_all

theorem canonicalize_not_digit (c : Nat) (h : isDigit c = false) :
    isDigit (canonicalize c) = false := by
  unfold canonicalize
  split_ifs with h1 h2
  · simp only [isDigit, Bool.and_eq_false_imp, decide_eq_true_eq, decide_eq_false_iff_not]; omega
  · decide
  · exact h

theorem canonicalize_digit (d : Nat) (h : isDigit d = true) : canonicalize d = d := by
  have h1 : 48 ≤ d ∧ d ≤ 57 := by simpa [isDigit] using h
  unfold canonicalize
  rw [if_neg (by omega), if_neg (by omega)]

theorem isWhiteSpace_digit (d : Nat) (h : isDigit d = true) : isWhiteSpace d = false := by
  have h1 : 48 ≤ d ∧ d ≤ 57 := by simpa [isDigit] using h
  simp only [isWhiteSpace, Bool.or_eq_false_iff, beq_eq_false_iff_ne, Bool.and_eq_false_imp,
    decide_eq_true_eq, decide_eq_false_iff_not]
  omega

/-- A literal that is not a digit accepts no digit. -/
theorem lit_rejects_digit (ic : Bool) (c d : Nat) (hc : isDigit c = false)
    (hd : isDigit d = true) : Atom.test ic (Atom.lit c) d = false := by
  cases ic with
  | false =>
    simp only [Atom.test, Bool.false_eq_true, if_false, beq_eq_false_iff_ne]
    rintro rfl
    rw [hc] at hd; exact absurd hd (by decide)
  | true =>
    simp only [Atom.test, if_true, beq_eq_false_iff_ne]
    intro h
    have h1 := canonicalize_not_digit c hc
    rw [h, canonicalize_digit d hd, hd] at h1
    exact absurd h1 (by decide)

/-- A digit-free atom gives the same answer before and after a digit renaming. -/
theorem Atom.test_rename (ic : Bool) (f : Nat → Nat) (hf : DigitRenaming f) (a : Atom)
    (ha : a.digitFree = true) (x : Nat) : a.test ic (f x) = a.test ic x := by
  have hx := hf x
  cases hd : isDigit x with
  | false => rw [hd] at hx; simp only [Bool.false_eq_true, if_false] at hx; rw [hx]
  | true =>
    rw [hd] at hx; simp only [if_true] at hx
    cases a with
    | lit c =>
      have hc : isDigit c = false := by simpa [Atom.digitFree] using ha
      rw [lit_rejects_digit ic c x hc hd, lit_rejects_digit ic c (f x) hc hx]
    | digit => simp [Atom.test, hd, hx]
    | space => simp [Atom.test, isWhiteSpace_digit, hd, hx]
    | oneOf cs =>
      have hcs : ∀ c ∈ cs, isDigit c = false := by simpa [Atom.digitFree] using ha
      have h1 : ∀ y, isDigit y = true → Atom.test ic (Atom.oneOf cs) y = false := by
        intro y hy
        have h2 : ∀ c ∈ cs, Atom.test ic (Atom.lit c) y = false :=
          fun c hc => lit_rejects_digit ic c y (hcs c hc) hy
        cases ic with
        | false =>
          simp only [Atom.test, Bool.false_eq_true, if_false, List.any_eq_false] at h2 ⊢
          intro c hc; simpa using h2 c hc
        | true =>
          simp only [Atom.test, if_true, List.any_eq_false] at h2 ⊢
          intro c hc; simpa using h2 c hc
      rw [h1 x hd, h1 (f x) hx]

theorem repeatAtom_map (p : Nat → Bool) (f : Nat → Nat) (hp : ∀ x, p (f x) = p x)
    (min : Nat) (max : Option Nat) (s : JSString) :
    repeatAtom p min max (s.map f) = (repeatAtom p min max s).map (List.map f) := by
  induction s generalizing min max with
  | nil => simp only [List.map_nil, repeatAtom]; split_ifs <;> rfl
  | cons x xs ih =>
    simp only [List.map_cons, repeatAtom, hp, ih, List.map_append]
    split_ifs <;> simp

/-- Matching commutes with a digit renaming when the pattern names no digit. -/
theorem matchRe_rename (ic : Bool) (f : Nat → Nat) (hf : DigitRenaming f) (r : Regex)
    (hr : r.digitFree = true) (st : MState) :
    matchRe ic r (st.rename f) = (matchRe ic r st).map (MState.rename f) := by
  induction r generalizing st with
  | empty => rfl
  | atom a =>
    simp only [Regex.digitFree] at hr
    obtain ⟨rest, caps⟩ := st
    cases rest with
    | nil => rfl
    | cons x xs =>
      simp only [matchRe, MState.rename, List.map_cons, Atom.test_rename ic f hf a hr]
      split_ifs <;> rfl
  | seq r s ihr ihs =>
    simp only [Regex.digitFree, Bool.and_eq_true] at hr
    simp only [matchRe, ihr hr.1, List.flatMap_map, List.map_flatMap, ihs hr.2]
  | alt r s ihr ihs =>
    simp only [Regex.digitFree, Bool.and_eq_true] at hr
    simp only [matchRe, ihr hr.1, ihs hr.2, List.map_append]
  | opt r ih =>
    simp only [Regex.digitFree] at hr
    simp only [matchRe, ih hr, List.map_append, List.map_cons, List.map_nil, List.filter_map]
    congr 2
    apply List.filter_congr
    intro st1 _
    simp [MState.rename]
  | rep a min max =>
    simp only [Regex.digitFree] at hr
    simp only [matchRe, MState.rename,
      repeatAtom_map _ f (Atom.test_rename ic f hf a hr), List.map_map]
    rfl
  | group i r ih =>
    simp only [Regex.digitFree] at hr
    simp only [matchRe, ih hr, List.map_map]
    apply List.map_congr_left
    intro st1 _
    simp only [Function.comp, MState.rename, List.length_map, MState.mk.injEq, true_and]
    funext j
    split_ifs <;> simp [List.map_take]

theorem matchHere_rename (ic : Bool) (f : Nat → Nat) (hf : DigitRenaming f) (r : Regex)
    (hr : r.digitFree = true) (s : JSString) :
    matchHere ic r (s.map f) = (matchHere ic r s).map (renameArray f) := by
  have h := matchRe_rename ic f hf (Regex.group 0 r) hr { rest := s, caps := fun _ => none }
  unfold matchHere
  have h0 : ({ rest := s.map f, caps := fun _ => none } : MState) =
      MState.rename f { rest := s, caps := fun _ => none } := rfl
  rw [h0, h, List.head?_map, Option.map_map, Option.map_map]
  rfl

theorem jsMatch_rename (ic : Bool) (f : Nat → Nat) (hf : DigitRenaming f) (r : Regex)
    (hr : r.digitFree = true) (s : JSString) :
    jsMatch ic r (s.map f) = (jsMatch ic r s).map (renameArray f) := by
  induction s with
  | nil => exact matchHere_rename ic f hf r hr []
  | cons x xs ih =>
    have h := matchHere_rename ic f hf r hr (x :: xs)
    simp only [List.map_cons] at h ih ⊢
    simp only [jsMatch, h]
    cases matchHere ic r (x :: xs) with
    | some m => rfl
    | none => exact ih

theorem firstMatch_rename (f : Nat → Nat) (hf : DigitRenaming f) (ps : List Regex)
    (hps : ∀ p ∈ ps, p.digitFree = true) (s : JSString) :
    firstMatch (s.map f) ps = (firstMatch s ps).map (renameArray f) := by
  induction ps with
  | nil => rfl
  | cons p ps ih =>
    simp only [firstMatch, jsMatch_rename true f hf p (hps p (List.mem_cons_self _ _))]
    cases jsMatch true p s with
    | some m => rfl
    | none => exact ih (fun q hq => hps q (List.mem_cons_of_mem _ hq))

theorem bpPatterns_digitFree : ∀ p ∈ bpPatterns, p.digitFree = true := by decide

/-- The blood-pressure fields are read off the first matching pattern. -/
theorem extractHealthMetrics_bp (text : JSString) :
    (extractHealthMetrics text).bp_systolic =
      (firstMatch text bpPatterns).map (fun m => parseIntArg (m 1)) ∧
    (extractHealthMetrics text).bp_diastolic =
      (firstMatch text bpPatterns).map (fun m => parseIntArg (m 2)) := by
  unfold extractHealthMetrics
  cases firstMatch text bpPatterns <;> cases firstMatch text diabetesPatterns <;>
    cases firstMatch text cholesterolPatterns <;> cases firstMatch text thyroidPatterns <;>
    exact ⟨rfl, rfl⟩

/-- The glucose, cholesterol and thyroid fields are read off the first matching pattern. -/
theorem extractHealthMetrics_values (text : JSString) :
    (extractHealthMetrics text).diabetes =
      (firstMatch text diabetesPatterns).map (fun m => parseFloatArg (m 1)) ∧
    (extractHealthMetrics text).cholesterol =
      (firstMatch text cholesterolPatterns).map (fun m => parseFloatArg (m 1)) ∧
    (extractHealthMetrics text).thyroid =
      (firstMatch text thyroidPatterns).map (fun m => parseFloatArg (m 1)) := by
  unfold extractHealthMetrics
  cases firstMatch text bpPatterns <;> cases firstMatch text diabetesPatterns <;>
    cases firstMatch text cholesterolPatterns <;> cases firstMatch text thyroidPatterns <;>
    exact ⟨rfl, rfl, rfl⟩

theorem renameBy_digitRenaming (ds : List Nat) (h : ∀ x ∈ ds, isDigit x = true) :
    DigitRenaming (renameBy ds) := by
  intro x
  unfold renameBy
  cases hx : isDigit x with
  | false => simp
  | true =>
    simp only [if_true]
    rw [List.getD_eq_getElem?_getD]
    cases hg : ds[x - 48]? with
    | none => simpa using hx
    | some y => exact h y (List.getElem?_mem hg)

theorem parseInt_digits (ds : JSString) (h : ∀ x ∈ ds, isDigit x = true) (hne : ds ≠ []) :
    parseInt ds = JSNumber.dec (digitsValue 0 ds) 0 := by
  unfold parseInt
  have h1 : ds.takeWhile isDigit = ds := List.takeWhile_eq_self_iff.2 h
  rw [h1]
  cases ds with
  | nil => exact absurd rfl hne
  | cons d ds => rfl

/-- The blood-pressure fields of a text obtained from a template by a digit renaming. -/
theorem bp_of_template (f : Nat → Nat) (hf : DigitRenaming f) (t c1 c2 : JSString)
    (h : (firstMatch t bpPatterns).map (fun m => (m 1, m 2)) = some (some c1, some c2)) :
    (extractHealthMetrics (t.map f)).bp_systolic = some (parseInt (c1.map f)) ∧
    (extractHealthMetrics (t.map f)).bp_diastolic = some (parseInt (c2.map f)) := by
  have h0 := extractHealthMetrics_bp (t.map f)
  rw [firstMatch_rename f hf bpPatterns bpPatterns_digitFree] at h0
  cases hm : firstMatch t bpPatterns with
  | none => rw [hm] at h; exact absurd h (by simp)
  | some m =>
    rw [hm] at h h0
    simp only [Option.map_some', Option.some.injEq, Prod.mk.injEq] at h
    simp only [Option.map_some', renameArray, h.1, h.2] at h0
    exact h0

set_option maxRecDepth 100000 in
/-- C8. For every pair of texts `da` and `db` of two or three decimal digits, the three
texts `BP: da/db`, `BP: da over db` and `BP da-db` are all mapped by `extractHealthMetrics`
to `bp_systolic` = the number written by `da` and `bp_diastolic` = the number written by
`db`. -/
theorem extractHealthMetrics_bp_phrasings (da db : JSString)
    (hda : ∀ x ∈ da, isDigit x = true) (hdb : ∀ x ∈ db, isDigit x = true)
    (hla : da.length = 2 ∨ da.length = 3) (hlb : db.length = 2 ∨ db.length = 3) :
    ∀ text ∈ [js "BP: " ++ da ++ js "/" ++ db, js "BP: " ++ da ++ js " over " ++ db,
        js "BP " ++ da ++ js "-" ++ db],
      (extractHealthMetrics text).bp_systolic = some (JSNumber.dec (digitsValue 0 da) 0) ∧
      (extractHealthMetrics text).bp_diastolic = some (JSNumber.dec (digitsValue 0 db) 0) := by
  have hf := renameBy_digitRenaming (da ++ db)
    (fun x hx => (List.mem_append.1 hx).elim (hda x) (hdb x))
  have hna : da ≠ [] := by rintro rfl; simp at hla
  have hnb : db ≠ [] := by rintro rfl; simp at hlb
  rw [← parseInt_digits da hda hna, ← parseInt_digits db hdb hnb]
  intro text htext
  simp only [List.mem_cons, List.mem_singleton, List.not_mem_nil, or_false] at htext
  rcases hla with hla | hla <;> rcases hlb with hlb | hlb
  · obtain ⟨a1, a2, rfl⟩ := List.length_eq_two.1 hla
    obtain ⟨b1, b2, rfl⟩ := List.length_eq_two.1 hlb
    rcases htext with rfl | rfl | rfl
    · exact bp_of_template _ hf (js "BP: 01/23") (js "01") (js "23") (by decide)
    · exact bp_of_template _ hf (js "BP: 01 over 23") (js "01") (js "23") (by decide)
    · exact bp_of_template _ hf (js "BP 01-23") (js "01") (js "23") (by decide)
  · obtain ⟨a1, a2, rfl⟩ := List.length_eq_two.1 hla
    obtain ⟨b1, b2, b3, rfl⟩ := List.length_eq_three.1 hlb
    rcases htext with rfl | rfl | rfl
    · exact bp_of_template _ hf (js "BP: 01/234") (js "01") (js "234") (by decide)
    · exact bp_of_template _ hf (js "BP: 01 over 234") (js "01") (js "234") (by decide)
    · exact bp_of_template _ hf (js "BP 01-234") (js "01") (js "234") (by decide)
  · obtain ⟨a1, a2, a3, rfl⟩ := List.length_eq_three.1 hla
    obtain ⟨b1, b2, rfl⟩ := List.length_eq_two.1 hlb
    rcases htext with rfl | rfl | rfl
    · exact bp_of_template _ hf (js "BP: 012/34") (js "012") (js "34") (by decide)
    · exact bp_of_template _ hf (js "BP: 012 over 34") (js "012") (js "34") (by decide)
    · exact bp_of_template _ hf (js "BP 012-34") (js "012") (js "34") (by decide)
  · obtain ⟨a1, a2, a3, rfl⟩ := List.length_eq_three.1 hla
    obtain ⟨b1, b2, b3, rfl⟩ := List.length_eq_three.1 hlb
    rcases htext with rfl | rfl | rfl
    · exact bp_of_template _ hf (js "BP: 012/345") (js "012") (js "345") (by decide)
    · exact bp_of_template _ hf (js "BP: 012 over 345") (js "012") (js "345") (by decide)
    · exact bp_of_template _ hf (js "BP 012-345") (js "012") (js "345") (by decide)

theorem extractHealthMetrics_bp_phrasings_witness :
    ((extractHealthMetrics (js "BP: 120/80")).bp_systolic = some (JSNumber.dec 120 0) ∧
      (extractHealthMetrics (js "BP: 120/80")).bp_diastolic = some (JSNumber.dec 80 0)) ∧
    ((extractHealthMetrics (js "BP: 120 over 80")).bp_systolic = some (JSNumber.dec 120 0) ∧
      (extractHealthMetrics (js "BP: 120 over 80")).bp_diastolic = some (JSNumber.dec 80 0)) ∧
    ((extractHealthMetrics (js "BP 120-80")).bp_systolic = some (JSNumber.dec 120 0) ∧
      (extractHealthMetrics (js "BP 120-80")).bp_diastolic = some (JSNumber.dec 80 0)) :=
  have h := extractHealthMetrics_bp_phrasings (js "120") (js "80") (by decide) (by decide)
    (Or.inr rfl) (Or.inl rfl)
  ⟨h _ (List.mem_cons_self _ _),
   h _ (List.mem_cons_of_mem _ (List.mem_cons_self _ _)),
   h _ (List.mem_cons_of_mem _ (List.mem_cons_of_mem _ (List.mem_cons_self _ _)))⟩

/-- Every result of the quantifier leaves a suffix of the input, after a prefix
of accepted code units whose length respects the bounds. -/
theorem repeatAtom_mem (p : Nat → Bool) (min : Nat) (max : Option Nat) (s r : JSString)
    (h : r ∈ repeatAtom p min max s) :
    ∃ pre, s = pre ++ r ∧ (∀ x ∈ pre, p x = true) ∧ min ≤ pre.length ∧
      ∀ m, max = some m → pre.length ≤ m := by
  induction s generalizing min max with
  | nil =>
    simp only [repeatAtom] at h
    split_ifs at h with h0
    · simp only [List.mem_singleton] at h
      exact ⟨[], by simp [h], by simp, by simp [h0], by simp⟩
    · simp at h
  | cons x xs ih =>
    simp only [repeatAtom, List.mem_append] at h
    rcases h with h | h
    · split_ifs at h with h0
      · obtain ⟨pre, h1, h2, h3, h4⟩ := ih _ _ h
        simp only [Bool.and_eq_true, Bool.not_eq_true', beq_eq_false_iff_ne, ne_eq] at h0
        refine ⟨x :: pre, by simp [h1], ?_, by simp; omega, ?_⟩
        · intro y hy
          rcases List.mem_cons.1 hy with rfl | hy
          · exact h0.1
          · exact h2 y hy
        · intro m hm
          subst hm
          have hm0 : m ≠ 0 := fun h => h0.2 (by rw [h])
          have := h4 (m - 1) rfl
          simp only [List.length_cons]; omega
      · simp at h
    · split_ifs at h with h0
      · simp only [List.mem_singleton] at h
        exact ⟨[], by simp [h], by simp, by simp [h0], by simp⟩
      · simp at h

/-- Every result of the matcher leaves a suffix of the input. -/
theorem matchRe_suffix (ic : Bool) (r : Regex) (st st1 : MState) (h : st1 ∈ matchRe ic r st) :
    ∃ pre, st.rest = pre ++ st1.rest := by
  induction r generalizing st st1 with
  | empty =>
    simp only [matchRe, List.mem_singleton] at h
    exact ⟨[], by simp [h]⟩
  | atom a =>
    obtain ⟨rest, caps⟩ := st
    cases rest with
    | nil => simp [matchRe] at h
    | cons x xs =>
      simp only [matchRe] at h
      split_ifs at h
      · simp only [List.mem_singleton] at h
        exact ⟨[x], by simp [h]⟩
      · simp at h
  | seq r s ihr ihs =>
    simp only [matchRe, List.mem_flatMap] at h
    obtain ⟨mid, h1, h2⟩ := h
    obtain ⟨p1, e1⟩ := ihr _ _ h1
    obtain ⟨p2, e2⟩ := ihs _ _ h2
    exact ⟨p1 ++ p2, by rw [e1, e2, List.append_assoc]⟩
  | alt r s ihr ihs =>
    simp only [matchRe, List.mem_append] at h
    rcases h with h | h
    · exact ihr _ _ h
    · exact ihs _ _ h
  | opt r ih =>
    simp only [matchRe, List.mem_append, List.mem_filter, List.mem_singleton] at h
    rcases h with h | h
    · exact ih _ _ h.1
    · exact ⟨[], by simp [h]⟩
  | rep a min max =>
    simp only [matchRe, List.mem_map] at h
    obtain ⟨r, hr, rfl⟩ := h
    obtain ⟨pre, h1, _⟩ := repeatAtom_mem _ _ _ _ _ hr
    exact ⟨pre, h1⟩
  | group i r ih =>
    simp only [matchRe, List.mem_map] at h
    obtain ⟨st2, h2, rfl⟩ := h
    exact ih st st2 h2

/-- A pattern leaves alone the captures of the groups it does not contain. -/
theorem matchRe_caps (ic : Bool) (r : Regex) (st st1 : MState) (h : st1 ∈ matchRe ic r st)
    (i : Nat) (hi : i ∉ r.groups) : st1.caps i = st.caps i := by
  induction r generalizing st st1 with
  | empty =>
    simp only [matchRe, List.mem_singleton] at h
    rw [h]
  | atom a =>
    obtain ⟨rest, caps⟩ := st
    cases rest with
    | nil => simp [matchRe] at h
    | cons x xs =>
      simp only [matchRe] at h
      split_ifs at h
      · simp only [List.mem_singleton] at h
        rw [h]
      · simp at h
  | seq r s ihr ihs =>
    simp only [Regex.groups, List.mem_append, not_or] at hi
    simp only [matchRe, List.mem_flatMap] at h
    obtain ⟨mid, h1, h2⟩ := h
    rw [ihs _ _ h2 hi.2, ihr _ _ h1 hi.1]
  | alt r s ihr ihs =>
    simp only [Regex.groups, List.mem_append, not_or] at hi
    simp only [matchRe, List.mem_append] at h
    rcases h with h | h
    · exact ihr _ _ h hi.1
    · exact ihs _ _ h hi.2
  | opt r ih =>
    simp only [Regex.groups] at hi
    simp only [matchRe, List.mem_append, List.mem_filter, List.mem_singleton] at h
    rcases h with h | h
    · exact ih _ _ h.1 hi
    · rw [h]
  | rep a min max =>
    simp only [matchRe, List.mem_map] at h
    obtain ⟨r, _, rfl⟩ := h
    rfl
  | group j r ih =>
    simp only [Regex.groups, List.mem_cons, not_or] at hi
    simp only [matchRe, List.mem_map] at h
    obtain ⟨st2, h2, rfl⟩ := h
    simp only [if_neg hi.1]
    exact ih st st2 h2 hi.2

/-- A group captures the text that its body consumed. -/
theorem matchRe_group (ic : Bool) (i : Nat) (r : Regex) (st st1 : MState)
    (h : st1 ∈ matchRe ic (Regex.group i r) st) :
    ∃ st2 pre, st2 ∈ matchRe ic r st ∧ st.rest = pre ++ st2.rest ∧ st1.rest = st2.rest ∧
      st1.caps i = some pre := by
  simp only [matchRe, List.mem_map] at h
  obtain ⟨st2, h2, rfl⟩ := h
  obtain ⟨pre, hpre⟩ := matchRe_suffix ic r st st2 h2
  refine ⟨st2, pre, h2, hpre, rfl, ?_⟩
  simp [hpre]

theorem mem_matchRe_seq (ic : Bool) (r s : Regex) (st st1 : MState) :
    st1 ∈ matchRe ic (Regex.seq r s) st ↔ ∃ mid, mid ∈ matchRe ic r st ∧ st1 ∈ matchRe ic s mid := by
  simp only [matchRe, List.mem_flatMap]

/-- The group `(\d{2,3})` captures two or three digits. -/
theorem group_digits23 (ic : Bool) (i : Nat) (st st1 : MState)
    (h : st1 ∈ matchRe ic (Regex.group i digits23) st) :
    ∃ d, st1.caps i = some d ∧ (∀ x ∈ d, isDigit x = true) ∧ 2 ≤ d.length ∧ d.length ≤ 3 := by
  obtain ⟨st2, pre, h2, hpre, _, hcap⟩ := matchRe_group ic i digits23 st st1 h
  simp only [digits23, matchRe, List.mem_map] at h2
  obtain ⟨r, hr, rfl⟩ := h2
  obtain ⟨pre1, e1, hd, hlo, hhi⟩ := repeatAtom_mem _ _ _ _ _ hr
  have : pre = pre1 := List.append_cancel_right (hpre.symm.trans e1)
  subst this
  exact ⟨pre, hcap, hd, hlo, hhi 3 rfl⟩

/-- Every match of a blood-pressure pattern captures two groups of two or three digits. -/
theorem bpPattern_captures (sep : Regex) (hsep : 1 ∉ sep.groups) (st st1 : MState)
    (h : st1 ∈ matchRe true (bpPattern sep) st) :
    ∃ d1 d2, st1.caps 1 = some d1 ∧ st1.caps 2 = some d2 ∧
      ((∀ x ∈ d1, isDigit x = true) ∧ 2 ≤ d1.length ∧ d1.length ≤ 3) ∧
      ((∀ x ∈ d2, isDigit x = true) ∧ 2 ≤ d2.length ∧ d2.length ≤ 3) := by
  simp only [bpPattern, seqs, mem_matchRe_seq] at h
  obtain ⟨s1, _, s2, _, s3, _, s4, _, s5, h5, s6, h6, s7, h7, s8, h8, h9⟩ := h
  obtain ⟨d1, c1, p1⟩ := group_digits23 true 1 s4 s5 h5
  obtain ⟨d2, c2, p2⟩ := group_digits23 true 2 s8 st1 h9
  refine ⟨d1, d2, ?_, c2, p1, p2⟩
  rw [matchRe_caps true _ s8 st1 h9 1 (by decide), matchRe_caps true _ s7 s8 h8 1 (by decide),
    matchRe_caps true _ s6 s7 h7 1 hsep, matchRe_caps true _ s5 s6 h6 1 (by decide), c1]

/-- A successful `match` comes from a result of the matcher at some position:
the captures of the groups other than 0 are those of that result. -/
theorem matchHere_some (ic : Bool) (r : Regex) (s : JSString) (m : MatchArray)
    (h : matchHere ic r s = some m) :
    ∃ st1, st1 ∈ matchRe ic r { rest := s, caps := fun _ => none } ∧
      ∀ j, j ≠ 0 → m j = st1.caps j := by
  unfold matchHere at h
  cases hl : matchRe ic (Regex.group 0 r) { rest := s, caps := fun _ => none } with
  | nil => rw [hl] at h; simp at h
  | cons st2 l =>
    rw [hl] at h
    simp only [List.head?_cons, Option.map_some', Option.some.injEq] at h
    have hmem : st2 ∈ matchRe ic (Regex.group 0 r) { rest := s, caps := fun _ => none } := by
      rw [hl]; exact List.mem_cons_self _ _
    simp only [matchRe, List.mem_map] at hmem
    obtain ⟨st1, h1, rfl⟩ := hmem
    refine ⟨st1, h1, ?_⟩
    intro j hj
    rw [← h]
    simp [hj]

theorem jsMatch_some (ic : Bool) (r : Regex) (s : JSString) (m : MatchArray)
    (h : jsMatch ic r s = some m) :
    ∃ t st1, st1 ∈ matchRe ic r { rest := t, caps := fun _ => none } ∧
      ∀ j, j ≠ 0 → m j = st1.caps j := by
  induction s with
  | nil => exact ⟨[], matchHere_some ic r [] m h⟩
  | cons x xs ih =>
    simp only [jsMatch] at h
    cases hm : matchHere ic r (x :: xs) with
    | some m1 =>
      rw [hm] at h
      simp only [Option.some.injEq] at h
      subst h
      exact ⟨x :: xs, matchHere_some ic r _ _ hm⟩
    | none =>
      rw [hm] at h
      exact ih h

theorem firstMatch_some (text : JSString) (ps : List Regex) (m : MatchArray)
    (h : firstMatch text ps = some m) : ∃ p ∈ ps, jsMatch true p text = some m := by
  induction ps with
  | nil => simp [firstMatch] at h
  | cons p ps ih =>
    simp only [firstMatch] at h
    cases hm : jsMatch true p text with
    | some m1 =>
      rw [hm] at h
      simp only [Option.some.injEq] at h
      subst h
      exact ⟨p, List.mem_cons_self _ _, hm⟩
    | none =>
      rw [hm] at h
      obtain ⟨q, hq, hq2⟩ := ih h
      exact ⟨q, List.mem_cons_of_mem _ hq, hq2⟩

theorem firstMatch_none (text : JSString) (ps : List Regex) :
    firstMatch text ps = none ↔ ∀ p ∈ ps, jsMatch true p text = none := by
  induction ps with
  | nil => simp [firstMatch]
  | cons p ps ih =>
    simp only [firstMatch, List.mem_cons, forall_eq_or_imp]
    cases hm : jsMatch true p text with
    | some m1 => simp
    | none => simpa using ih

theorem digitsValue_lt (ds : List Nat) (h : ∀ x ∈ ds, isDigit x = true) (acc : Nat) :
    digitsValue acc ds < (acc + 1) * 10 ^ ds.length := by
  induction ds generalizing acc with
  | nil =>
    show acc < (acc + 1) * 10 ^ 0
    omega
  | cons d ds ih =>
    have hd : 48 ≤ d ∧ d ≤ 57 := by simpa [isDigit] using h d (List.mem_cons_self _ _)
    have h1 := ih (fun x hx => h x (List.mem_cons_of_mem _ hx)) (acc * 10 + (d - 48))
    have h2 : acc * 10 + (d - 48) + 1 ≤ (acc + 1) * 10 := by omega
    have h3 : (acc * 10 + (d - 48) + 1) * 10 ^ ds.length ≤ (acc + 1) * 10 * 10 ^ ds.length :=
      Nat.mul_le_mul_right _ h2
    have h4 : (acc + 1) * 10 ^ (d :: ds).length = (acc + 1) * 10 * 10 ^ ds.length := by
      rw [List.length_cons, Nat.pow_succ, Nat.mul_assoc, Nat.mul_comm 10]
    rw [h4]
    exact Nat.lt_of_lt_of_le h1 h3

/-- Every blood-pressure match array holds two integers below 1000. -/
theorem bp_match_integers (text : JSString) (m : MatchArray)
    (h : firstMatch text bpPatterns = some m) :
    ∃ a b, parseIntArg (m 1) = JSNumber.dec a 0 ∧ parseIntArg (m 2) = JSNumber.dec b 0 ∧
      a < 1000 ∧ b < 1000 := by
  obtain ⟨p, hp, hm⟩ := firstMatch_some text bpPatterns m h
  obtain ⟨t, st1, h1, hcaps⟩ := jsMatch_some true p text m hm
  have hcap : ∃ d1 d2, st1.caps 1 = some d1 ∧ st1.caps 2 = some d2 ∧
      ((∀ x ∈ d1, isDigit x = true) ∧ 2 ≤ d1.length ∧ d1.length ≤ 3) ∧
      ((∀ x ∈ d2, isDigit x = true) ∧ 2 ≤ d2.length ∧ d2.length ≤ 3) := by
    simp only [bpPatterns, List.mem_cons, List.mem_singleton, List.not_mem_nil, or_false] at hp
    rcases hp with rfl | rfl | rfl
    · exact bpPattern_captures _ (by decide) _ _ h1
    · exact bpPattern_captures _ (by decide) _ _ h1
    · exact bpPattern_captures _ (by decide) _ _ h1
  obtain ⟨d1, d2, c1, c2, ⟨g1, l1, u1⟩, ⟨g2, l2, u2⟩⟩ := hcap
  have n1 : d1 ≠ [] := by rintro rfl; simp at l1
  have n2 : d2 ≠ [] := by rintro rfl; simp at l2
  have b1 := digitsValue_lt d1 g1 0
  have b2 := digitsValue_lt d2 g2 0
  have e1 : (10 : Nat) ^ d1.length ≤ 10 ^ 3 := Nat.pow_le_pow_right (by norm_num) u1
  have e2 : (10 : Nat) ^ d2.length ≤ 10 ^ 3 := Nat.pow_le_pow_right (by norm_num) u2
  refine ⟨digitsValue 0 d1, digitsValue 0 d2, ?_, ?_, by omega, by omega⟩
  · rw [hcaps 1 (by decide), c1]; exact parseInt_digits d1 g1 n1
  · rw [hcaps 2 (by decide), c2]; exact parseInt_digits d2 g2 n2

/-- C2. For every text, `bp_systolic` is null if and only if `bp_diastolic` is null in the
metric set returned by `extractHealthMetrics`: the two fields are both null, or both set to
integers (below 1000). -/
theorem extractHealthMetrics_bp_together (text : JSString) :
    ((extractHealthMetrics text).bp_systolic = none ↔
      (extractHealthMetrics text).bp_diastolic = none) ∧
    (((extractHealthMetrics text).bp_systolic = none ∧
        (extractHealthMetrics text).bp_diastolic = none) ∨
      ∃ a b, (extractHealthMetrics text).bp_systolic = some (JSNumber.dec a 0) ∧
        (extractHealthMetrics text).bp_diastolic = some (JSNumber.dec b 0) ∧
        a < 1000 ∧ b < 1000) := by
  obtain ⟨h1, h2⟩ := extractHealthMetrics_bp text
  rw [h1, h2]
  cases hm : firstMatch text bpPatterns with
  | none => simp
  | some m =>
    obtain ⟨a, b, ha, hb, la, lb⟩ := bp_match_integers text m hm
    simp only [Option.map_some', ha, hb]
    exact ⟨by simp, Or.inr ⟨a, b, rfl, rfl, la, lb⟩⟩

/-- On a string that starts with a digit `parseFloat` yields a number. -/
theorem parseFloat_digit (d : Nat) (t : JSString) (hd : isDigit d = true) :
    ∃ m k, parseFloat (d :: t) = JSNumber.dec m k := by
  unfold parseFloat
  rw [List.takeWhile_cons_of_pos hd]
  simp only []
  split
  · exact ⟨_, _, rfl⟩
  · exact ⟨_, _, rfl⟩

/-- A group around `\d{n+1,max}...` captures a text that starts with a digit. -/
theorem group_decimal (ic : Bool) (i n : Nat) (max : Option Nat) (x : Regex) (st st1 : MState)
    (h : st1 ∈ matchRe ic (Regex.group i (Regex.seq (Regex.rep Atom.digit (n + 1) max) x)) st) :
    ∃ d t, st1.caps i = some (d :: t) ∧ isDigit d = true := by
  obtain ⟨st2, pre, h2, hpre, _, hcap⟩ := matchRe_group ic i _ st st1 h
  rw [mem_matchRe_seq] at h2
  obtain ⟨mid, hmid, hx⟩ := h2
  simp only [matchRe, List.mem_map] at hmid
  obtain ⟨r, hr, rfl⟩ := hmid
  obtain ⟨pre1, e1, hd, hlo, _⟩ := repeatAtom_mem _ _ _ _ _ hr
  obtain ⟨pre2, e2⟩ := matchRe_suffix ic x _ st2 hx
  simp only at e2
  have hcat : pre ++ st2.rest = (pre1 ++ pre2) ++ st2.rest := by
    rw [← hpre, e1, e2, List.append_assoc]
  have : pre = pre1 ++ pre2 := List.append_cancel_right hcat
  subst this
  cases pre1 with
  | nil => simp at hlo
  | cons d t =>
    exact ⟨d, t ++ pre2, by simpa using hcap, by simpa [Atom.test] using hd d (List.mem_cons_self _ _)⟩

/-- Every match of a value pattern whose number starts with `\d{n+1,max}` captures
a text that starts with a digit. -/
theorem valuePattern_captures (label unit x : Regex) (n : Nat) (max : Option Nat)
    (hunit : 1 ∉ unit.groups) (st st1 : MState)
    (h : st1 ∈ matchRe true
      (valuePattern label (Regex.seq (Regex.rep Atom.digit (n + 1) max) x) unit) st) :
    ∃ d t, st1.caps 1 = some (d :: t) ∧ isDigit d = true := by
  simp only [valuePattern, seqs, mem_matchRe_seq] at h
  obtain ⟨s1, _, s2, _, s3, _, s4, _, s5, h5, s6, h6, h7⟩ := h
  obtain ⟨d, t, c, hd⟩ := group_decimal true 1 n max x s4 s5 h5
  refine ⟨d, t, ?_, hd⟩
  rw [matchRe_caps true _ s6 st1 h7 1 hunit, matchRe_caps true _ s5 s6 h6 1 (by decide), c]

/-- The match array of a value pattern holds a number, not `NaN`. -/
theorem value_match_number (text : JSString) (ps : List Regex) (m : MatchArray)
    (hps : ∀ p ∈ ps, ∃ label unit x n max, 1 ∉ Regex.groups unit ∧
      p = valuePattern label (Regex.seq (Regex.rep Atom.digit (n + 1) max) x) unit)
    (h : firstMatch text ps = some m) :
    ∃ a k, parseFloatArg (m 1) = JSNumber.dec a k := by
  obtain ⟨p, hp, hm⟩ := firstMatch_some text ps m h
  obtain ⟨t, st1, h1, hcaps⟩ := jsMatch_some true p text m hm
  obtain ⟨label, unit, x, n, max, hunit, rfl⟩ := hps p hp
  obtain ⟨d, t, c, hd⟩ := valuePattern_captures label unit x n max hunit _ _ h1
  rw [hcaps 1 (by decide), c]
  exact parseFloat_digit d t hd

theorem diabetesPatterns_shape : ∀ p ∈ diabetesPatterns,
    ∃ label unit x n max, 1 ∉ Regex.groups unit ∧
      p = valuePattern label (Regex.seq (Regex.rep Atom.digit (n + 1) max) x) unit := by
  intro p hp
  simp only [diabetesPatterns, List.mem_cons, List.mem_singleton, List.not_mem_nil, or_false] at hp
  rcases hp with rfl | rfl
  · exact ⟨_, _, _, 1, _, by decide, rfl⟩
  · exact ⟨_, _, _, 1, _, by decide, rfl⟩

theorem cholesterolPatterns_shape : ∀ p ∈ cholesterolPatterns,
    ∃ label unit x n max, 1 ∉ Regex.groups unit ∧
      p = valuePattern label (Regex.seq (Regex.rep Atom.digit (n + 1) max) x) unit := by
  intro p hp
  simp only [cholesterolPatterns, List.mem_cons, List.mem_singleton, List.not_mem_nil,
    or_false] at hp
  rcases hp with rfl | rfl
  · exact ⟨_, _, _, 1, _, by decide, rfl⟩
  · exact ⟨_, _, _, 1, _, by decide, rfl⟩

theorem thyroidPatterns_shape : ∀ p ∈ thyroidPatterns,
    ∃ label unit x n max, 1 ∉ Regex.groups unit ∧
      p = valuePattern label (Regex.seq (Regex.rep Atom.digit (n + 1) max) x) unit := by
  intro p hp
  simp only [thyroidPatterns, List.mem_cons, List.mem_singleton, List.not_mem_nil, or_false] at hp
  rcases hp with rfl | rfl
  · exact ⟨_, _, _, 0, _, by decide, rfl⟩
  · exact ⟨_, _, _, 0, _, by decide, rfl⟩

/-- C7. `extractHealthMetrics` is a total function into the five-field metric set: for
every text each of the five fields is null or a number (never `NaN`), and the fields of a
family are null exactly when no pattern of that family matches the text. -/
theorem extractHealthMetrics_never_fails (text : JSString) :
    (∀ v ∈ [(extractHealthMetrics text).bp_systolic, (extractHealthMetrics text).bp_diastolic,
        (extractHealthMetrics text).diabetes, (extractHealthMetrics text).cholesterol,
        (extractHealthMetrics text).thyroid],
      v = none ∨ ∃ a k, v = some (JSNumber.dec a k)) ∧
    (((extractHealthMetrics text).bp_systolic = none ∧
        (extractHealthMetrics text).bp_diastolic = none) ↔
      ∀ p ∈ bpPatterns, jsMatch true p text = none) ∧
    ((extractHealthMetrics text).diabetes = none ↔
      ∀ p ∈ diabetesPatterns, jsMatch true p text = none) ∧
    ((extractHealthMetrics text).cholesterol = none ↔
      ∀ p ∈ cholesterolPatterns, jsMatch true p text = none) ∧
    ((extractHealthMetrics text).thyroid = none ↔
      ∀ p ∈ thyroidPatterns, jsMatch true p text = none) := by
  obtain ⟨h1, h2⟩ := extractHealthMetrics_bp text
  obtain ⟨h3, h4, h5⟩ := extractHealthMetrics_values text
  simp only [← firstMatch_none]
  rw [h1, h2, h3, h4, h5]
  refine ⟨?_, by simp, by simp, by simp, by simp⟩
  intro v hv
  simp only [List.mem_cons, List.mem_singleton, List.not_mem_nil, or_false] at hv
  rcases hv with rfl | rfl | rfl | rfl | rfl
  · cases hm : firstMatch text bpPatterns with
    | none => exact Or.inl rfl
    | some m =>
      obtain ⟨a, b, ha, hb, _, _⟩ := bp_match_integers text m hm
      exact Or.inr ⟨a, 0, by simp [ha]⟩
  · cases hm : firstMatch text bpPatterns with
    | none => exact Or.inl rfl
    | some m =>
      obtain ⟨a, b, ha, hb, _, _⟩ := bp_match_integers text m hm
      exact Or.inr ⟨b, 0, by simp [hb]⟩
  · cases hm : firstMatch text diabetesPatterns with
    | none => exact Or.inl rfl
    | some m =>
      obtain ⟨a, k, ha⟩ := value_match_number text _ m diabetesPatterns_shape hm
      exact Or.inr ⟨a, k, by simp [ha]⟩
  · cases hm : firstMatch text cholesterolPatterns with
    | none => exact Or.inl rfl
    | some m =>
      obtain ⟨a, k, ha⟩ := value_match_number text _ m cholesterolPatterns_shape hm
      exact Or.inr ⟨a, k, by simp [ha]⟩
  · cases hm : firstMatch text thyroidPatterns with
    | none => exact Or.inl rfl
    | some m =>
      obtain ⟨a, k, ha⟩ := value_match_number text _ m thyroidPatterns_shape hm
      exact Or.inr ⟨a, k, by simp [ha]⟩

/-- A successful `match` starts at some position of the text. -/
theorem jsMatch_position (ic : Bool) (r : Regex) (s : JSString) (m : MatchArray)
    (h : jsMatch ic r s = some m) :
    ∃ pre t st1, s = pre ++ t ∧ st1 ∈ matchRe ic r { rest := t, caps := fun _ => none } := by
  induction s with
  | nil =>
    obtain ⟨st1, h1, _⟩ := matchHere_some ic r [] m h
    exact ⟨[], [], st1, rfl, h1⟩
  | cons x xs ih =>
    simp only [jsMatch] at h
    cases hm : matchHere ic r (x :: xs) with
    | some m1 =>
      obtain ⟨st1, h1, _⟩ := matchHere_some ic r _ _ hm
      exact ⟨[], x :: xs, st1, rfl, h1⟩
    | none =>
      rw [hm] at h
      obtain ⟨pre, t, st1, e, h1⟩ := ih h
      exact ⟨x :: pre, t, st1, by rw [e]; rfl, h1⟩

/-- When the pattern matches at none of the positions of `pre`, the search goes
on after `pre`. -/
theorem jsMatch_skip (ic : Bool) (r : Regex) (pre t : JSString)
    (h : ∀ i, i < pre.length → matchHere ic r ((pre ++ t).drop i) = none) :
    jsMatch ic r (pre ++ t) = jsMatch ic r t := by
  induction pre with
  | nil => rfl
  | cons x pre ih =>
    have h0 := h 0 (by simp)
    simp only [List.drop_zero, List.cons_append] at h0
    have e : jsMatch ic r (x :: (pre ++ t)) = jsMatch ic r (pre ++ t) := by
      rw [jsMatch, h0]
    rw [List.cons_append, e]
    apply ih
    intro i hi
    have := h (i + 1) (by simpa using hi)
    simpa using this

theorem mem_matchRe_alt (ic : Bool) (r s : Regex) (st st1 : MState) :
    st1 ∈ matchRe ic (Regex.alt r s) st ↔ st1 ∈ matchRe ic r st ∨ st1 ∈ matchRe ic s st := by
  simp only [matchRe, List.mem_append]

/-- A pattern written as a word consumes that word up to letter case. -/
theorem str_consumes (cs : List Nat) (st st1 : MState)
    (h : st1 ∈ matchRe true
      (cs.foldr (fun c r => Regex.seq (Regex.atom (Atom.lit c)) r) Regex.empty) st) :
    ∃ w, st.rest = w ++ st1.rest ∧ w.map canonicalize = cs.map canonicalize := by
  induction cs generalizing st with
  | nil =>
    simp only [List.foldr_nil, matchRe, List.mem_singleton] at h
    exact ⟨[], by simp [h], rfl⟩
  | cons c cs ih =>
    simp only [List.foldr_cons, mem_matchRe_seq] at h
    obtain ⟨mid, h1, h2⟩ := h
    obtain ⟨rest, caps⟩ := st
    cases rest with
    | nil => simp [matchRe] at h1
    | cons x xs =>
      simp only [matchRe] at h1
      split_ifs at h1 with hx
      · simp only [List.mem_singleton] at h1
        subst h1
        obtain ⟨w, e, hw⟩ := ih _ h2
        simp only at e
        refine ⟨x :: w, by simp [e], ?_⟩
        simp only [Atom.test, if_true, beq_iff_eq] at hx
        simp [hw, hx]
      · simp at h1

set_option maxRecDepth 4000 in
/-- At the phrase `Blood Glucose: 95 mg/dl` the first glucose pattern matches and captures `95`,
whatever follows. -/
theorem glucose_phrase_here (suf : JSString) :
    ∃ m, matchHere true (valuePattern diabetesLabel decimal23 unitMg)
      (js "Blood Glucose: 95 mg/dl" ++ suf) = some m ∧ m 1 = some (js "95") := by
  simp [matchHere, valuePattern, diabetesLabel, decimal23, unitMg, digits23, ws, colon, seqs,
    alts, str, js, utf16Char, matchRe, repeatAtom, Atom.test, canonicalize, isDigit,
    isWhiteSpace]

/-- A match of a glucose pattern starts with one of the four labels, up to letter case. -/
theorem diabetes_match_label (number unit : Regex) (st st1 : MState)
    (h : st1 ∈ matchRe true (valuePattern diabetesLabel number unit) st) :
    ∃ label ∈ [js "Blood Glucose", js "Blood sugar", js "FBS", js "Fasting Blood Sugar"],
      ∃ w suf, st.rest = w ++ suf ∧ w.map canonicalize = label.map canonicalize := by
  simp only [valuePattern, seqs, mem_matchRe_seq] at h
  obtain ⟨s1, h1, _⟩ := h
  simp only [diabetesLabel, alts, mem_matchRe_alt] at h1
  rcases h1 with h1 | h1 | h1 | h1
  · obtain ⟨w, e, hw⟩ := str_consumes (js "Blood Glucose") _ _ h1
    exact ⟨_, by simp, w, _, e, hw⟩
  · obtain ⟨w, e, hw⟩ := str_consumes (js "Blood sugar") _ _ h1
    exact ⟨_, by simp, w, _, e, hw⟩
  · obtain ⟨w, e, hw⟩ := str_consumes (js "FBS") _ _ h1
    exact ⟨_, by simp, w, _, e, hw⟩
  · obtain ⟨w, e, hw⟩ := str_consumes (js "Fasting Blood Sugar") _ _ h1
    exact ⟨_, by simp, w, _, e, hw⟩

/-- C9, counterexample. The text `FBS: 110 mg/dl, Blood Glucose: 95 mg/dl` contains the
phrase `Blood Glucose: 95 mg/dl`, yet its glucose field is 110 and not 95. -/
theorem glucose_phrase_not_first :
    includes twoGlucoseReadings (js "Blood Glucose: 95 mg/dl") = true ∧
    (extractHealthMetrics twoGlucoseReadings).diabetes = some (JSNumber.dec 110 0) ∧
    (extractHealthMetrics twoGlucoseReadings).diabetes ≠ some (JSNumber.dec 95 0) := by
  decide

/-- C9, amended. For every text that contains the phrase `Blood Glucose: 95 mg/dl` and in
which the first glucose pattern matches at no position before that phrase,
`extractHealthMetrics` returns glucose (field `diabetes`) = 95; and for every text that
contains none of the labels `Blood Glucose`, `Blood sugar`, `FBS`, `Fasting Blood Sugar` in
any letter case, the glucose field is null. -/
theorem extractHealthMetrics_glucose (pre suf text : JSString) :
    ((∀ i, i < pre.length →
        matchHere true (valuePattern diabetesLabel decimal23 unitMg)
          ((pre ++ (js "Blood Glucose: 95 mg/dl" ++ suf)).drop i) = none) →
      (extractHealthMetrics (pre ++ (js "Blood Glucose: 95 mg/dl" ++ suf))).diabetes =
        some (JSNumber.dec 95 0)) ∧
    ((∀ label ∈ [js "Blood Glucose", js "Blood sugar", js "FBS", js "Fasting Blood Sugar"],
        containsCI text label = false) →
      (extractHealthMetrics text).diabetes = none) := by
  constructor
  · intro h
    obtain ⟨m, hm, h95⟩ := glucose_phrase_here suf
    have h1 : jsMatch true (valuePattern diabetesLabel decimal23 unitMg)
        (js "Blood Glucose: 95 mg/dl" ++ suf) = some m := by
      have : js "Blood Glucose: 95 mg/dl" ++ suf =
          66 :: (List.drop 1 (js "Blood Glucose: 95 mg/dl") ++ suf) := rfl
      rw [this] at hm ⊢
      rw [jsMatch, hm]
    have h2 : firstMatch (pre ++ (js "Blood Glucose: 95 mg/dl" ++ suf)) diabetesPatterns =
        some m := by
      rw [diabetesPatterns, firstMatch, jsMatch_skip true _ pre _ h, h1]
    rw [(extractHealthMetrics_values _).1, h2]
    simp only [Option.map_some', h95]
    rfl
  · intro h
    rw [(extractHealthMetrics_values _).1]
    cases hm : firstMatch text diabetesPatterns with
    | none => rfl
    | some m =>
      exfalso
      obtain ⟨p, hp, hj⟩ := firstMatch_some text _ m hm
      obtain ⟨pre, t, st1, e, h1⟩ := jsMatch_position true p text m hj
      have hl : ∃ label ∈ [js "Blood Glucose", js "Blood sugar", js "FBS",
          js "Fasting Blood Sugar"],
          ∃ w suf, t = w ++ suf ∧ w.map canonicalize = label.map canonicalize := by
        simp only [diabetesPatterns, List.mem_cons, List.mem_singleton, List.not_mem_nil,
          or_false] at hp
        rcases hp with rfl | rfl
        · exact diabetes_match_label _ _ _ _ h1
        · exact diabetes_match_label _ _ _ _ h1
      obtain ⟨label, hlabel, w, suf, e2, hw⟩ := hl
      have hc : containsCI text label = true := by
        unfold containsCI
        rw [includes_iff]
        exact ⟨pre.map canonicalize, suf.map canonicalize, by
          rw [e, e2, ← hw, List.map_append, List.map_append, List.append_assoc]⟩
      rw [h label hlabel] at hc
      exact absurd hc (by decide)

theorem extractHealthMetrics_glucose_witness :
    (extractHealthMetrics (js "Report. " ++ (js "Blood Glucose: 95 mg/dl" ++ js " fasting"))).diabetes
      = some (JSNumber.dec 95 0) ∧
    (extractHealthMetrics (js "BP: 120/80")).diabetes = none :=
  ⟨(extractHealthMetrics_glucose (js "Report. ") (js " fasting") (js "BP: 120/80")).1
      (fun i hi => Option.isNone_iff_eq_none.1
        ((by decide : ∀ i, i < (js "Report. ").length →
          (matchHere true (valuePattern diabetesLabel decimal23 unitMg)
            ((js "Report. " ++ (js "Blood Glucose: 95 mg/dl" ++ js " fasting")).drop i)).isNone
              = true) i hi)),
   (extractHealthMetrics_glucose (js "Report. ") (js " fasting") (js "BP: 120/80")).2
      (by decide)⟩

/-- The metrics returned by `extractTextFromFile` are those of the text it returns. -/
theorem extractTextFromFile_metrics (file : SubmittedFile) (e : Extraction)
    (h : (extractTextFromFile file).1 = Except.ok e) :
    e.metrics = extractHealthMetrics e.text := by
  unfold extractTextFromFile at h
  simp only [] at h
  split at h
  · simp at h
  · simp only [Except.ok.injEq] at h
    rw [← h]

/-- In a list of metric sets that each hold both blood-pressure values or neither, the
first systolic value and the first diastolic value come from the same metric set, one that
holds a reading; they are both null only when no metric set holds a reading. -/
theorem findSome_bp_pair (ms : List Metrics)
    (h : ∀ m ∈ ms, (m.bp_systolic = none ↔ m.bp_diastolic = none)) :
    (ms.findSome? (·.bp_systolic) = none ∧ ms.findSome? (·.bp_diastolic) = none ∧
      ∀ m ∈ ms, m.bp_systolic = none ∧ m.bp_diastolic = none) ∨
    ∃ m ∈ ms, m.bp_systolic ≠ none ∧ ms.findSome? (·.bp_systolic) = m.bp_systolic ∧
      ms.findSome? (·.bp_diastolic) = m.bp_diastolic := by
  induction ms with
  | nil => exact Or.inl ⟨rfl, rfl, by simp⟩
  | cons m ms ih =>
    have hm := h m (List.mem_cons_self _ _)
    cases hs : m.bp_systolic with
    | none =>
      have hd : m.bp_diastolic = none := hm.1 hs
      rcases ih (fun x hx => h x (List.mem_cons_of_mem _ hx)) with h1 | ⟨x, hx, hne, h1, h2⟩
      · left
        refine ⟨by simp [List.findSome?, hs, h1.1], by simp [List.findSome?, hd, h1.2.1], ?_⟩
        intro y hy
        rcases List.mem_cons.1 hy with rfl | hy
        · exact ⟨hs, hd⟩
        · exact h1.2.2 y hy
      · right
        exact ⟨x, List.mem_cons_of_mem _ hx, hne, by simp [List.findSome?, hs, h1],
          by simp [List.findSome?, hd, h2]⟩
    | some v =>
      cases hd : m.bp_diastolic with
      | none => rw [hm.2 hd] at hs; exact absurd hs (by simp)
      | some w =>
        right
        exact ⟨m, List.mem_cons_self _ _, by simp [hs], by simp [List.findSome?, hs],
          by simp [List.findSome?, hd]⟩

theorem metricSets_mem (extract : SubmittedFile → Except JSString Extraction)
    (files : List SubmittedFile) (f : SubmittedFile) (e : Extraction) (hf : f ∈ files)
    (he : extract f = Except.ok e) : e.metrics ∈ metricSets extract files := by
  unfold metricSets
  rw [List.mem_filterMap]
  exact ⟨f, hf, by rw [he]⟩

theorem mem_metricSets (extract : SubmittedFile → Except JSString Extraction)
    (files : List SubmittedFile) (m : Metrics) (h : m ∈ metricSets extract files) :
    ∃ f ∈ files, ∃ e, extract f = Except.ok e ∧ e.metrics = m := by
  unfold metricSets at h
  rw [List.mem_filterMap] at h
  obtain ⟨f, hf, h1⟩ := h
  cases he : extract f with
  | error x => rw [he] at h1; simp at h1
  | ok e =>
    rw [he] at h1
    simp only [Option.some.injEq] at h1
    exact ⟨f, hf, e, he, h1⟩

/-- The two blood-pressure fields are null together. -/
theorem bp_null_together (text : JSString) :
    (extractHealthMetrics text).bp_systolic = none ↔
      (extractHealthMetrics text).bp_diastolic = none := by
  obtain ⟨h1, h2⟩ := extractHealthMetrics_bp text
  rw [h1, h2]
  cases firstMatch text bpPatterns <;> simp

/-- C10. For every batch of documents processed by `extractTextFromFile` and every order
in which their processing completes, the aggregated pair (`bp_systolic`, `bp_diastolic`)
is the pair of one single document of the batch that holds a blood-pressure reading, and
it is (null, null) only when no document of the batch holds one: it is never the systolic
of one document with the diastolic of another. -/
theorem handleSubmit_bp_pair (u : JSString) (files order : List SubmittedFile)
    (hperm : order.Perm files) :
    ∃ m, (handleSubmit (fun f => (extractTextFromFile f).1) (some u) order true).saved = some m ∧
      ((m.bp_systolic = none ∧ m.bp_diastolic = none ∧
          ∀ f ∈ files, ∀ e, (extractTextFromFile f).1 = Except.ok e →
            e.metrics.bp_systolic = none ∧ e.metrics.bp_diastolic = none) ∨
        ∃ f ∈ files, ∃ e, (extractTextFromFile f).1 = Except.ok e ∧
          e.metrics.bp_systolic ≠ none ∧
          m.bp_systolic = e.metrics.bp_systolic ∧ m.bp_diastolic = e.metrics.bp_diastolic) := by
  have hsaved := handleSubmit_saved (fun f => (extractTextFromFile f).1) u order
  refine ⟨_, hsaved, ?_⟩
  have hall : ∀ m ∈ metricSets (fun f => (extractTextFromFile f).1) order,
      (m.bp_systolic = none ↔ m.bp_diastolic = none) := by
    intro m hm
    obtain ⟨f, _, e, he, rfl⟩ := mem_metricSets _ _ _ hm
    rw [extractTextFromFile_metrics f e he]
    exact bp_null_together e.text
  rcases findSome_bp_pair _ hall with ⟨h1, h2, h3⟩ | ⟨m, hm, hne, h1, h2⟩
  · left
    refine ⟨h1, h2, ?_⟩
    intro f hf e he
    exact h3 _ (metricSets_mem (fun f => (extractTextFromFile f).1) order f e
      (hperm.symm.subset hf) he)
  · right
    obtain ⟨f, hf, e, he, rfl⟩ := mem_metricSets _ _ _ hm
    exact ⟨f, hperm.subset hf, e, he, hne, h1, h2⟩

theorem handleSubmit_bp_pair_witness :
    (∃ m, (handleSubmit (fun f => (extractTextFromFile f).1) (some (js "u1"))
        [pdfReport (js "b.pdf") (js "BP: 130/85"), pdfReport (js "a.pdf") (js "BP: 120/80")]
        true).saved = some m ∧
      ((m.bp_systolic = some (JSNumber.dec 120 0) ∧ m.bp_diastolic = some (JSNumber.dec 80 0)) ∨
        (m.bp_systolic = some (JSNumber.dec 130 0) ∧
          m.bp_diastolic = some (JSNumber.dec 85 0)))) ∧
    ((handleSubmit (fun f => (extractTextFromFile f).1) (some (js "u1"))
        [pdfReport (js "b.pdf") (js "BP: 130/85"), pdfReport (js "a.pdf") (js "BP: 120/80")]
        true).saved.map (fun m => (m.bp_systolic, m.bp_diastolic)) =
      some (some (JSNumber.dec 130 0), some (JSNumber.dec 85 0))) ∧
    ((handleSubmit (fun f => (extractTextFromFile f).1) (some (js "u1"))
        [pdfReport (js "a.pdf") (js "BP: 120/80"), pdfReport (js "b.pdf") (js "BP: 130/85")]
        true).saved.map (fun m => (m.bp_systolic, m.bp_diastolic)) =
      some (some (JSNumber.dec 120 0), some (JSNumber.dec 80 0))) := by
  have ea : (extractTextFromFile (pdfReport (js "a.pdf") (js "BP: 120/80"))).1 =
      Except.ok { text := js "BP: 120/80",
                  metrics := { bp_systolic := some (JSNumber.dec 120 0),
                               bp_diastolic := some (JSNumber.dec 80 0),
                               diabetes := none, cholesterol := none, thyroid := none } } := by
    decide
  have eb : (extractTextFromFile (pdfReport (js "b.pdf") (js "BP: 130/85"))).1 =
      Except.ok { text := js "BP: 130/85",
                  metrics := { bp_systolic := some (JSNumber.dec 130 0),
                               bp_diastolic := some (JSNumber.dec 85 0),
                               diabetes := none, cholesterol := none, thyroid := none } } := by
    decide
  refine ⟨?_, by decide, by decide⟩
  obtain ⟨m, hs, h⟩ := handleSubmit_bp_pair (js "u1")
    [pdfReport (js "a.pdf") (js "BP: 120/80"), pdfReport (js "b.pdf") (js "BP: 130/85")]
    [pdfReport (js "b.pdf") (js "BP: 130/85"), pdfReport (js "a.pdf") (js "BP: 120/80")]
    (List.Perm.swap _ _ _)
  refine ⟨m, hs, ?_⟩
  rcases h with ⟨_, _, hall⟩ | ⟨f, hf, e, he, _, h1, h2⟩
  · have := (hall _ (List.mem_cons_self _ _) _ ea).1
    exact absurd this (by simp)
  · simp only [List.mem_cons, List.mem_singleton, List.not_mem_nil, or_false] at hf
    rcases hf with rfl | rfl
    · rw [ea] at he
      simp only [Except.ok.injEq] at he
      subst he
      exact Or.inl ⟨h1, h2⟩
    · rw [eb] at he
      simp only [Except.ok.injEq] at he
      subst he
      exact Or.inr ⟨h1, h2⟩

/-- C14, counterexample. A buffer of length at least 8 with a valid `%PDF-` header and a
file declared `application/pdf` are rejected by `validatePDF` when the file is named
`report.txt`. -/
theorem validatePDF_rejects_extension :
    8 ≤ samplePdfBytes.length ∧
    includes (asciiString (samplePdfBytes.take 8)) (js "%PDF-") = true ∧
    textNamedPdf.mimetype = js "application/pdf" ∧
    validatePDF (some textNamedPdf) (some samplePdfBytes) =
      { isValid := false,
        error := some (js "Invalid file extension. Please upload a PDF file.") } := by
  decide

/-- C14, amended. For every uploaded file and buffer such that the buffer has length at
least 8, its header contains the `%PDF-` signature, the declared content type is
`application/pdf`, the original filename lower-cased ends with `.pdf` and the declared
size is not 0, `validatePDF` passes; and for every violation of one of the first three
conditions it fails. -/
theorem validatePDF_three_conditions (file : UploadedFile) (buffer : List Nat) :
    ((8 ≤ buffer.length ∧ includes (asciiString (buffer.take 8)) (js "%PDF-") = true ∧
        file.mimetype = js "application/pdf" ∧
        endsWith (toLowerCase file.originalFilename) (js ".pdf") = true ∧ file.size ≠ 0) →
      (validatePDF (some file) (some buffer)).isValid = true) ∧
    (¬ (8 ≤ buffer.length ∧ includes (asciiString (buffer.take 8)) (js "%PDF-") = true ∧
        file.mimetype = js "application/pdf") →
      (validatePDF (some file) (some buffer)).isValid = false) := by
  simp only [validatePDF]
  constructor
  · rintro ⟨h1, h2, h3, h4, h5⟩
    have h6 : buffer.length ≠ 0 := by omega
    have h7 : ¬ buffer.length < 8 := by omega
    simp [h2, h3, h4, h5, h6, h7]
  · intro h
    split_ifs <;> simp_all

theorem validatePDF_three_conditions_witness :
    (validatePDF (some samplePdfFile) (some samplePdfBytes)).isValid = true ∧
    (validatePDF (some samplePdfFile) (some (js "%PDF"))).isValid = false :=
  ⟨(validatePDF_three_conditions samplePdfFile samplePdfBytes).1 (by decide),
   (validatePDF_three_conditions samplePdfFile (js "%PDF")).2 (by decide)⟩

theorem trim_append_newline (s : JSString) : trim (s ++ [10]) = trim s := by
  rw [trim_eq, trim_eq, List.dropWhile_append]
  split_ifs with h
  · have h1 : List.dropWhile isWhiteSpace s = [] := by simpa using h
    rw [h1]
    rfl
  · exact List.rdropWhile_concat_pos _ _ _ (by decide)

/-- The text accumulated by the loop over pages that all can be read. -/
theorem readPages_ok (pages : List (List JSString)) (acc : JSString) :
    readPages acc (pages.map Except.ok) =
      Except.ok (acc ++ (pages.map (fun items => join (js " ") items ++ js "\n")).flatten) := by
  induction pages generalizing acc with
  | nil => simp [readPages]
  | cons p ps ih =>
    simp only [List.map_cons, readPages, ih, List.flatten_cons, List.append_assoc]

/-- Appending a newline after every text is joining the texts with newlines and
appending one more newline. -/
theorem join_newline (ps : List JSString) (hne : ps ≠ []) :
    (ps.map (fun p => p ++ js "\n")).flatten = join (js "\n") ps ++ js "\n" := by
  induction ps with
  | nil => exact absurd rfl hne
  | cons p ps ih =>
    cases ps with
    | nil => simp [join]
    | cons q qs =>
      have h := ih (by simp)
      simp only [List.map_cons, List.flatten_cons] at h ⊢
      rw [h]
      simp [join, List.append_assoc]

/-- The text that `parsePDFWithFallback` trims is, up to the final newline, the
text of the specification. -/
theorem trim_fullText (pages : List (List JSString)) :
    trim ((pages.map (fun items => join (js " ") items ++ js "\n")).flatten) =
      fallbackTextSpec pages := by
  unfold fallbackTextSpec
  cases hp : pages with
  | nil => rfl
  | cons p ps =>
    have h := join_newline ((p :: ps).map (join (js " "))) (by simp)
    rw [List.map_map] at h
    have e : (fun p => p ++ js "\n") ∘ join (js " ") =
        fun items => join (js " ") items ++ js "\n" := rfl
    rw [e] at h
    rw [h]
    exact trim_append_newline _

/-- C15. For every PDF that pdf.js opens as pages 1..N, each page yielding a list of text
tokens, `parsePDFWithFallback` succeeds if and only if the text of the specification
(tokens joined with spaces, pages joined with newlines in ascending order, trimmed) is
non-empty; it then returns exactly that text and `numpages = N`, and otherwise throws
`No text extracted using PDF.js method`. -/
theorem parsePDFWithFallback_refines (pages : List (List JSString)) :
    parsePDFWithFallback (Except.ok (pages.map Except.ok)) =
      (if fallbackTextSpec pages = [] then
        Except.error (js "No text extracted using PDF.js method")
      else
        Except.ok { text := some (fallbackTextSpec pages), numpages := pages.length }) := by
  simp only [parsePDFWithFallback, readPages_ok, List.nil_append, trim_fullText, List.length_map]

/-- The files whose extraction fails leave the accumulated state untouched. -/
theorem foldl_processFile_filter (extract : SubmittedFile → Except JSString Extraction)
    (files : List SubmittedFile) (acc : Metrics × List Report) :
    files.foldl (processFile extract) acc =
      (files.filter (extractionSucceeds extract)).foldl (processFile extract) acc := by
  induction files generalizing acc with
  | nil => rfl
  | cons f fs ih =>
    cases h : extract f with
    | error e =>
      have h1 : extractionSucceeds extract f = false := by simp [extractionSucceeds, h]
      have h2 : processFile extract acc f = acc := by simp [processFile, h]
      rw [List.foldl_cons, List.filter_cons_of_neg (by simp [h1]), h2, ih]
    | ok r =>
      have h1 : extractionSucceeds extract f = true := by simp [extractionSucceeds, h]
      rw [List.foldl_cons, List.filter_cons_of_pos h1, List.foldl_cons, ih]

/-- A content type that is neither a PDF nor an image fails as unsupported. -/
theorem extractTextFromFile_unsupported (file : SubmittedFile)
    (h1 : toLowerCase file.type ≠ js "application/pdf")
    (h2 : startsWith (toLowerCase file.type) (js "image/") = false) :
    extractTextFromFile file = (Except.error (js "Unsupported file type"), []) := by
  unfold extractTextFromFile
  simp [h1, h2]

/-- C11. For every batch, `handleSubmit` leaves exactly the state it leaves for the same
batch with every document whose `extractTextFromFile` fails removed (same aggregated
metrics, same reports), and still completes as a success; a document of content type
`text/plain` is such a failing document: it fails with `Unsupported file type`. -/
theorem handleSubmit_skips_failures (u : JSString) (files : List SubmittedFile) :
    handleSubmit (fun f => (extractTextFromFile f).1) (some u) files true =
      handleSubmit (fun f => (extractTextFromFile f).1) (some u)
        (files.filter (extractionSucceeds (fun f => (extractTextFromFile f).1))) true ∧
    (handleSubmit (fun f => (extractTextFromFile f).1) (some u) files true).success = true ∧
    (∀ f : SubmittedFile, f.type = js "text/plain" →
      (extractTextFromFile f).1 = Except.error (js "Unsupported file type") ∧
      extractionSucceeds (fun f => (extractTextFromFile f).1) f = false) := by
  refine ⟨?_, by simp [handleSubmit], ?_⟩
  · simp only [handleSubmit]
    rw [← foldl_processFile_filter]
  · intro f hf
    have h := extractTextFromFile_unsupported f (by rw [hf]; decide) (by rw [hf]; decide)
    simp [extractionSucceeds, h]

theorem handleSubmit_skips_failures_witness :
    (handleSubmit (fun f => (extractTextFromFile f).1) (some (js "u1"))
        [plainTextFile, pdfReport (js "a.pdf") (js "BP: 120/80")] true).saved =
      (handleSubmit (fun f => (extractTextFromFile f).1) (some (js "u1"))
        [pdfReport (js "a.pdf") (js "BP: 120/80")] true).saved ∧
    (extractTextFromFile plainTextFile).1 = Except.error (js "Unsupported file type") :=
  ⟨congrArg SubmitResult.saved
      (handleSubmit_skips_failures (js "u1")
        [plainTextFile, pdfReport (js "a.pdf") (js "BP: 120/80")]).1,
   ((handleSubmit_skips_failures (js "u1") []).2.2 plainTextFile rfl).1⟩

/-- Once `createObjectURL` has returned, a call of `extractTextFromImage` that got an
engine invokes `worker.terminate` exactly once, after `recognize` and before the call
returns or throws, whatever `recognize` and `terminate` do; in a call that gets no engine
it is not invoked. -/
theorem extractTextFromImage_terminates (file : SubmittedFile)
    (hurl : file.ocr.createObjectURL = Except.ok ()) :
    ((Event.createWorker ∈ (extractTextFromImage file).2 ∧
        file.ocr.createWorker = Except.ok ()) →
      (extractTextFromImage file).2.count Event.terminate = 1 ∧
      ∃ tail, (extractTextFromImage file).2 =
          [Event.extractTextFromImage, Event.createWorker, Event.createObjectURL,
            Event.recognize, Event.terminate] ++ tail ∧
        Event.terminate ∉ tail) ∧
    (¬ (Event.createWorker ∈ (extractTextFromImage file).2 ∧
        file.ocr.createWorker = Except.ok ()) →
      (extractTextFromImage file).2.count Event.terminate = 0) := by
  have key : (extractTextFromImage file).2 =
      Event.extractTextFromImage :: (extractTextFromImageTry file).2 := by
    unfold extractTextFromImage
    generalize extractTextFromImageTry file = r
    obtain ⟨r1, evs⟩ := r
    cases r1 <;> rfl
  rw [key]
  unfold extractTextFromImageTry
  by_cases h1 : startsWith file.type (js "image/") = true
  · by_cases h2 : file.size = 0
    · simp [h1, h2]
    · cases h3 : file.ocr.createWorker with
      | error e => simp [h1, h2, h3]
      | ok v =>
        cases h4 : file.ocr.terminate with
        | error e => simp [h1, h2, h3, h4, hurl]
        | ok v2 => simp [h1, h2, h3, h4, hurl]
  · simp [h1]

theorem extractTextFromImage_terminates_unreadable :
    (extractTextFromImage unreadableImage).2.count Event.terminate = 1 ∧
    (extractTextFromImage unreadableImage).1 =
      Except.error (js "Image processing failed: recognition failed") :=
  ⟨((extractTextFromImage_terminates unreadableImage rfl).1 ⟨by decide, rfl⟩).1, by decide⟩

/-- C12, the failing path. For an object with an image content type that is not a `Blob`,
`createWorker` gives an engine, `URL.createObjectURL` then throws before the inner `try` is
entered, and `extractTextFromImage` throws without ever invoking `worker.terminate`: the
engine acquired by the call is not released. -/
theorem extractTextFromImage_leaks_engine :
    notABlob.ocr.createWorker = Except.ok () ∧
    Event.createWorker ∈ (extractTextFromImage notABlob).2 ∧
    (extractTextFromImage notABlob).2.count Event.terminate = 0 ∧
    extractTextFromImage notABlob =
      (Except.error (js ("Image processing failed: Failed to execute 'createObjectURL' on " ++
          "'URL': Overload resolution failed.")),
       [Event.extractTextFromImage, Event.createWorker, Event.createObjectURL]) := by
  decide

/-- No event changes `medicalFiles`. -/
theorem pageStep_medicalFiles (s : PageState) (e : PageEvent) :
    (pageStep s e).medicalFiles = s.medicalFiles := by
  cases e with
  | inputChange name value => rfl
  | fileChange file => cases file <;> rfl
  | submit user ok => rfl
  | authChanged o => cases o <;> rfl

theorem foldl_pageStep_medicalFiles (events : List PageEvent) (s : PageState) :
    (events.foldl pageStep s).medicalFiles = s.medicalFiles := by
  induction events generalizing s with
  | nil => rfl
  | cons e es ih => rw [List.foldl_cons, ih, pageStep_medicalFiles]

/-- A submission over no document writes five nulls, or nothing. -/
theorem handleSubmit_nil (extract : SubmittedFile → Except JSString Extraction)
    (user : Option JSString) (ok : Bool) :
    (handleSubmit extract user [] ok).saved =
      (if user.isSome && ok then some emptyMetrics else none) ∧
    (handleSubmit extract user [] ok).extractedMetrics =
      (if user.isSome && ok then some emptyMetrics else none) ∧
    (handleSubmit extract user [] ok).reports = [] := by
  cases user <;> cases ok <;> simp [handleSubmit]

theorem foldl_pageStep_stored (events : List PageEvent) (s : PageState)
    (hs : s.medicalFiles = [])
    (h : s.stored = none ∨ s.stored = some emptyMetrics) :
    (events.foldl pageStep s).stored = none ∨
      (events.foldl pageStep s).stored = some emptyMetrics := by
  induction events generalizing s with
  | nil => exact h
  | cons e es ih =>
    rw [List.foldl_cons]
    apply ih _ (by rw [pageStep_medicalFiles, hs])
    cases e with
    | inputChange name value => exact h
    | fileChange file => cases file <;> exact h
    | submit user ok =>
      simp only [pageStep, hs, (handleSubmit_nil _ user ok).1]
      split_ifs
      · right; rfl
      · exact h
    | authChanged o => cases o <;> exact h

/-- C17. In every state that the page reaches through its handlers, `medicalFiles` is the
empty list; consequently every `handleSubmit` aggregates over zero documents: whenever it
writes (user logged in, `setDoc` succeeding) the five metrics written and displayed are
null and no report is added, and the record in the store never holds anything but five
nulls, whatever file was selected. -/
theorem page_medicalFiles_empty (events : List PageEvent) :
    (runPage events).medicalFiles = [] ∧
    (∀ u, (pageStep (runPage events) (PageEvent.submit (some u) true)).stored =
        some emptyMetrics ∧
      (pageStep (runPage events) (PageEvent.submit (some u) true)).extractedMetrics =
        some emptyMetrics) ∧
    ((runPage events).stored = none ∨ (runPage events).stored = some emptyMetrics) := by
  have h0 : (runPage events).medicalFiles = [] := foldl_pageStep_medicalFiles events initialPage
  refine ⟨h0, ?_, foldl_pageStep_stored events initialPage rfl (Or.inl rfl)⟩
  intro u
  simp only [pageStep, h0, (handleSubmit_nil _ (some u) true).1,
    (handleSubmit_nil _ (some u) true).2.1]
  exact ⟨rfl, rfl⟩

theorem page_medicalFiles_empty_witness :
    (runPage [PageEvent.fileChange (some (pdfReport (js "a.pdf") (js "BP: 120/80"))),
        PageEvent.submit (some (js "u1")) true]).stored = some emptyMetrics :=
  ((page_medicalFiles_empty
    [PageEvent.fileChange (some (pdfReport (js "a.pdf") (js "BP: 120/80")))]).2.1 (js "u1")).1

theorem firstMatchOf_string (text : JSString) (ps : List Regex) :
    firstMatchOf (stringValue text) ps = Except.ok (firstMatch text ps) := by
  induction ps with
  | nil => rfl
  | cons p ps ih =>
    simp only [firstMatchOf, firstMatch, stringValue] at ih ⊢
    cases jsMatch true p text with
    | some m => rfl
    | none => exact ih

/-- On a string the function on text values is `extractHealthMetrics`. -/
theorem extractHealthMetricsOf_string (text : JSString) :
    extractHealthMetricsOf (stringValue text) = extractHealthMetrics text := by
  unfold extractHealthMetricsOf extractHealthMetrics
  simp only [firstMatchOf_string, emptyMetrics]

/-- C13, counterexample. When `match` throws for the blood-pressure patterns on a value
that otherwise answers as the text `Blood Glucose: 95 mg/dl`, the glucose field is left
null, although without the exception it receives 95. -/
theorem extractHealthMetrics_exception_skips_rest :
    (extractHealthMetricsOf throwingOnBp).diabetes = none ∧
    (extractHealthMetricsOf (stringValue (js "Blood Glucose: 95 mg/dl"))).diabetes =
      some (JSNumber.dec 95 0) ∧
    extractHealthMetricsOf throwingOnBp = emptyMetrics := by
  decide

/-- C13, amended. On every value passed as `text`, `extractHealthMetrics` returns a metric
set (an exception raised while matching is swallowed): the fields of a family receive the
values of its own match when neither this family nor a family before it throws, and are
left null when this family or a family before it throws. -/
theorem extractHealthMetrics_exception (text : TextValue) :
    (∀ bp, firstMatchOf text bpPatterns = Except.ok bp →
      (extractHealthMetricsOf text).bp_systolic = bp.map (fun m => parseIntArg (m 1)) ∧
      (extractHealthMetricsOf text).bp_diastolic = bp.map (fun m => parseIntArg (m 2)) ∧
      (∀ d, firstMatchOf text diabetesPatterns = Except.ok d →
        (extractHealthMetricsOf text).diabetes = d.map (fun m => parseFloatArg (m 1)) ∧
        (∀ c, firstMatchOf text cholesterolPatterns = Except.ok c →
          (extractHealthMetricsOf text).cholesterol = c.map (fun m => parseFloatArg (m 1)) ∧
          (∀ t, firstMatchOf text thyroidPatterns = Except.ok t →
            (extractHealthMetricsOf text).thyroid = t.map (fun m => parseFloatArg (m 1))) ∧
          ((∃ e, firstMatchOf text thyroidPatterns = Except.error e) →
            (extractHealthMetricsOf text).thyroid = none)) ∧
        ((∃ e, firstMatchOf text cholesterolPatterns = Except.error e) →
          (extractHealthMetricsOf text).cholesterol = none ∧
          (extractHealthMetricsOf text).thyroid = none)) ∧
      ((∃ e, firstMatchOf text diabetesPatterns = Except.error e) →
        (extractHealthMetricsOf text).diabetes = none ∧
        (extractHealthMetricsOf text).cholesterol = none ∧
        (extractHealthMetricsOf text).thyroid = none)) ∧
    ((∃ e, firstMatchOf text bpPatterns = Except.error e) →
      extractHealthMetricsOf text = emptyMetrics) := by
  unfold extractHealthMetricsOf
  cases h1 : firstMatchOf text bpPatterns with
  | error e => simp
  | ok bp =>
    cases h2 : firstMatchOf text diabetesPatterns with
    | error e => cases bp <;> simp [emptyMetrics]
    | ok d =>
      cases h3 : firstMatchOf text cholesterolPatterns with
      | error e => cases bp <;> cases d <;> simp [emptyMetrics]
      | ok c =>
        cases h4 : firstMatchOf text thyroidPatterns with
        | error e => cases bp <;> cases d <;> cases c <;> simp [emptyMetrics]
        | ok t => cases bp <;> cases d <;> cases c <;> cases t <;> simp [emptyMetrics]

theorem extractHealthMetrics_exception_witness :
    extractHealthMetricsOf throwingOnBp = emptyMetrics :=
  (extractHealthMetrics_exception throwingOnBp).2 ⟨js "boom", rfl⟩

/-- The loop stops at the first pattern that matches. -/
theorem firstMatch_split (text : JSString) (pre post : List Regex) (p : Regex)
    (hpre : ∀ q ∈ pre, (jsMatch true q text).isNone = true)
    (hp : (jsMatch true p text).isSome = true) :
    firstMatch text (pre ++ p :: post) = jsMatch true p text := by
  induction pre with
  | nil =>
    simp only [List.nil_append, firstMatch]
    cases h : jsMatch true p text with
    | some m => rfl
    | none => rw [h] at hp; exact absurd hp (by decide)
  | cons q pre ih =>
    have hq : jsMatch true q text = none := by
      simpa using hpre q (List.mem_cons_self _ _)
    simp only [List.cons_append, firstMatch, hq]
    exact ih (fun r hr => hpre r (List.mem_cons_of_mem _ hr))

/-- On a text value the loop does not call `match` for the patterns listed after
the first one that matches. -/
theorem firstMatchOf_split (tv : TextValue) (pre post : List Regex) (p : Regex)
    (m : MatchArray) (hpre : ∀ q ∈ pre, tv q = Except.ok none)
    (hp : tv p = Except.ok (some m)) :
    firstMatchOf tv (pre ++ p :: post) = Except.ok (some m) := by
  induction pre with
  | nil => simp only [List.nil_append, firstMatchOf, hp]
  | cons q pre ih =>
    simp only [List.cons_append, firstMatchOf, hpre q (List.mem_cons_self _ _)]
    exact ih (fun r hr => hpre r (List.mem_cons_of_mem _ hr))

/-- C16. For every text and every family, when a pattern of the family's list matches the
text and no pattern listed before it does, the fields of the family receive the values of
that pattern's match, whatever the patterns listed after it would match and wherever in
the text the matches lie; and `match` is not called for the patterns listed after it. -/
theorem extractHealthMetrics_list_priority (text : JSString) (pre post : List Regex)
    (p : Regex) (hpre : ∀ q ∈ pre, (jsMatch true q text).isNone = true)
    (hp : (jsMatch true p text).isSome = true) :
    (bpPatterns = pre ++ p :: post →
      (extractHealthMetrics text).bp_systolic =
        (jsMatch true p text).map (fun m => parseIntArg (m 1)) ∧
      (extractHealthMetrics text).bp_diastolic =
        (jsMatch true p text).map (fun m => parseIntArg (m 2))) ∧
    (diabetesPatterns = pre ++ p :: post →
      (extractHealthMetrics text).diabetes =
        (jsMatch true p text).map (fun m => parseFloatArg (m 1))) ∧
    (cholesterolPatterns = pre ++ p :: post →
      (extractHealthMetrics text).cholesterol =
        (jsMatch true p text).map (fun m => parseFloatArg (m 1))) ∧
    (thyroidPatterns = pre ++ p :: post →
      (extractHealthMetrics text).thyroid =
        (jsMatch true p text).map (fun m => parseFloatArg (m 1))) ∧
    (∀ tv : TextValue, (∀ q ∈ pre, tv q = Except.ok none) → tv p = stringValue text p →
      firstMatchOf tv (pre ++ p :: post) = Except.ok (jsMatch true p text)) := by
  have h := firstMatch_split text pre post p hpre hp
  obtain ⟨b1, b2⟩ := extractHealthMetrics_bp text
  obtain ⟨v1, v2, v3⟩ := extractHealthMetrics_values text
  refine ⟨?_, ?_, ?_, ?_, ?_⟩
  · intro e; rw [b1, b2, e, h]; exact ⟨rfl, rfl⟩
  · intro e; rw [v1, e, h]
  · intro e; rw [v2, e, h]
  · intro e; rw [v3, e, h]
  · intro tv h1 h2
    cases hm : jsMatch true p text with
    | none => rw [hm] at hp; exact absurd hp (by decide)
    | some m =>
      apply firstMatchOf_split tv pre post p m h1
      rw [h2, stringValue, hm]

theorem extractHealthMetrics_list_priority_witness :
    (extractHealthMetrics (js "BP 110-70. BP: 120/80")).bp_systolic =
      some (JSNumber.dec 120 0) ∧
    (extractHealthMetrics (js "BP 110-70. BP: 120/80")).bp_diastolic =
      some (JSNumber.dec 80 0) :=
  have h := (extractHealthMetrics_list_priority (js "BP 110-70. BP: 120/80") []
    [bpPattern (str "over"), bpPattern (Regex.atom (Atom.oneOf (js "-–")))]
    (bpPattern (Regex.atom (Atom.lit 47))) (by simp) (by decide)).1 rfl
  ⟨h.1.trans (by decide), h.2.trans (by decide)⟩

theorem swapUnits_digitRenaming (a b : Nat) (ha : isDigit a = true) (hb : isDigit b = true) :
    DigitRenaming (swapUnits a b) := by
  intro x
  unfold swapUnits
  by_cases h1 : x = a
  · subst h1; simp [ha, hb]
  · by_cases h2 : x = b
    · subst h2; simp [h1, ha, hb]
    · simp only [if_neg h1, if_neg h2]
      split_ifs with h
      exact h

theorem swapUnits_swapUnits (a b x : Nat) : swapUnits a b (swapUnits a b x) = x := by
  unfold swapUnits
  by_cases h1 : x = a
  · subst h1
    by_cases h3 : b = x
    · simp [h3]
    · simp [h3]
  · by_cases h2 : x = b
    · subst h2; simp [h1]
    · simp [h1, h2]

theorem map_swapUnits_swapUnits (a b : Nat) (s : JSString) :
    (s.map (swapUnits a b)).map (swapUnits a b) = s := by
  rw [List.map_map]
  have : swapUnits a b ∘ swapUnits a b = id := funext (swapUnits_swapUnits a b)
  rw [this, List.map_id]

/-- A digit renaming moves no text without digits. -/
theorem map_rename_nondigits (f : Nat → Nat) (hf : DigitRenaming f) (s : JSString)
    (hs : s.all (fun x => !isDigit x) = true) : s.map f = s := by
  induction s with
  | nil => rfl
  | cons x xs ih =>
    simp only [List.all_cons, Bool.and_eq_true, Bool.not_eq_true'] at hs
    have hx := hf x
    rw [hs.1] at hx
    simp only [Bool.false_eq_true, if_false] at hx
    rw [List.map_cons, hx, ih hs.2]

theorem map_rename_digits (f : Nat → Nat) (hf : DigitRenaming f) (s : JSString)
    (hs : ∀ x ∈ s, isDigit x = true) : ∀ x ∈ s.map f, isDigit x = true := by
  intro y hy
  obtain ⟨x, hx, rfl⟩ := List.mem_map.1 hy
  have h := hf x
  rw [hs x hx] at h
  simpa using h

/-- A pattern that matches at no digit `5` matches at no digit. -/
theorem matchHere_digit_none (p : Regex) (hp : p.digitFree = true)
    (h5 : ∀ rest, matchHere true p (53 :: rest) = none)
    (x : Nat) (hx : isDigit x = true) (rest : JSString) :
    matchHere true p (x :: rest) = none := by
  have hf := swapUnits_digitRenaming 53 x (by decide) hx
  have e : x :: rest = (53 :: rest.map (swapUnits 53 x)).map (swapUnits 53 x) := by
    rw [List.map_cons, map_swapUnits_swapUnits]
    simp [swapUnits]
  rw [e, matchHere_rename true _ hf p hp, h5]
  rfl

/-- A pattern that matches at no digit and nowhere in `tail` matches nowhere in a
text of digits followed by `tail`. -/
theorem jsMatch_digits_none (p : Regex) (hp : p.digitFree = true)
    (h5 : ∀ rest, matchHere true p (53 :: rest) = none)
    (tail : JSString) (ht : jsMatch true p tail = none)
    (g : JSString) (hg : ∀ x ∈ g, isDigit x = true) :
    jsMatch true p (g ++ tail) = none := by
  induction g with
  | nil => exact ht
  | cons x g ih =>
    rw [List.cons_append, jsMatch,
      matchHere_digit_none p hp h5 x (hg x (List.mem_cons_self _ _))]
    exact ih (fun y hy => hg y (List.mem_cons_of_mem _ hy))

/-- A digit-free pattern that finds nothing in `label 5.` nor at a digit finds nothing in
`label d.f unit`, for every digit `d` and every text of digits `f`. -/
theorem jsMatch_single_digit_none (p : Regex) (hp : p.digitFree = true)
    (label unit : JSString) (hlabel : label.all (fun x => !isDigit x) = true)
    (hunit : unit.all (fun x => !isDigit x) = true)
    (h1 : ∀ tail, jsMatch true p (label ++ (53 :: 46 :: tail)) = jsMatch true p tail)
    (h5 : ∀ rest, matchHere true p (53 :: rest) = none)
    (h2 : jsMatch true p unit = none)
    (d : Nat) (hd : isDigit d = true) (f : JSString) (hf : ∀ x ∈ f, isDigit x = true) :
    jsMatch true p (label ++ (d :: 46 :: (f ++ unit))) = none := by
  have hr := swapUnits_digitRenaming 53 d (by decide) hd
  have e : label ++ (d :: 46 :: (f ++ unit)) =
      (label ++ (53 :: 46 :: (f.map (swapUnits 53 d) ++ unit))).map (swapUnits 53 d) := by
    rw [List.map_append, map_rename_nondigits _ hr label hlabel, List.map_cons, List.map_cons,
      List.map_append, map_swapUnits_swapUnits, map_rename_nondigits _ hr unit hunit]
    have e1 : swapUnits 53 d 53 = d := by simp [swapUnits]
    have e2 : swapUnits 53 d 46 = 46 := by
      have := hr 46
      simpa [isDigit] using this
    rw [e1, e2]
  rw [e, jsMatch_rename true _ hr p hp, h1,
    jsMatch_digits_none p hp h5 unit h2 _ (map_rename_digits _ hr f hf)]
  rfl

/-- A digit-free pattern that finds nothing in `label 5 unit` finds nothing in
`label d unit`, for every digit `d`. -/
theorem jsMatch_single_digit_plain (p : Regex) (hp : p.digitFree = true)
    (label unit : JSString) (hlabel : label.all (fun x => !isDigit x) = true)
    (hunit : unit.all (fun x => !isDigit x) = true)
    (h : jsMatch true p (label ++ (53 :: unit)) = none)
    (d : Nat) (hd : isDigit d = true) :
    jsMatch true p (label ++ (d :: unit)) = none := by
  have hr := swapUnits_digitRenaming 53 d (by decide) hd
  have e : label ++ (d :: unit) = (label ++ (53 :: unit)).map (swapUnits 53 d) := by
    rw [List.map_append, map_rename_nondigits _ hr label hlabel, List.map_cons,
      map_rename_nondigits _ hr unit hunit]
    have e1 : swapUnits 53 d 53 = d := by simp [swapUnits]
    rw [e1]
  rw [e, jsMatch_rename true _ hr p hp, h]
  rfl

set_option maxRecDepth 4000 in
theorem glucose_mg_template (tail : JSString) :
    jsMatch true (valuePattern diabetesLabel decimal23 unitMg) (js "Blood Glucose: " ++ (53 :: 46 :: tail)) =
      jsMatch true (valuePattern diabetesLabel decimal23 unitMg) tail := by
  simp [jsMatch, matchHere, valuePattern, diabetesLabel, decimal23, unitMg, digits23, ws, colon,
    seqs, alts, str, js, utf16Char, matchRe, repeatAtom, Atom.test, canonicalize, isDigit,
    isWhiteSpace]

set_option maxRecDepth 4000 in
theorem glucose_mg_digit (rest : JSString) :
    matchHere true (valuePattern diabetesLabel decimal23 unitMg) (53 :: rest) = none := by
  simp [matchHere, valuePattern, diabetesLabel, decimal23, unitMg, digits23, ws, colon,
    seqs, alts, str, js, utf16Char, matchRe, repeatAtom, Atom.test, canonicalize, isDigit,
    isWhiteSpace]

/-- The pattern finds nothing in `Blood Glucose: d.f mmol/L` nor in `Blood Glucose: d mmol/L`. -/
theorem glucose_mg_single_digit (d : Nat) (hd : isDigit d = true) (f : JSString)
    (hf : ∀ x ∈ f, isDigit x = true) :
    jsMatch true (valuePattern diabetesLabel decimal23 unitMg)
        (js "Blood Glucose: " ++ (d :: 46 :: (f ++ js " mmol/L"))) = none ∧
    jsMatch true (valuePattern diabetesLabel decimal23 unitMg)
        (js "Blood Glucose: " ++ (d :: js " mmol/L")) = none :=
  ⟨jsMatch_single_digit_none _ (by decide) _ _ (by decide) (by decide) glucose_mg_template
      glucose_mg_digit (Option.isNone_iff_eq_none.1 (by decide)) d hd f hf,
   jsMatch_single_digit_plain _ (by decide) _ _ (by decide) (by decide)
      (Option.isNone_iff_eq_none.1 (by decide)) d hd⟩

set_option maxRecDepth 4000 in
theorem glucose_mmol_template (tail : JSString) :
    jsMatch true (valuePattern diabetesLabel decimal23 unitMmol) (js "Blood Glucose: " ++ (53 :: 46 :: tail)) =
      jsMatch true (valuePattern diabetesLabel decimal23 unitMmol) tail := by
  simp [jsMatch, matchHere, valuePattern, diabetesLabel, decimal23, unitMmol, digits23, ws, colon,
    seqs, alts, str, js, utf16Char, matchRe, repeatAtom, Atom.test, canonicalize, isDigit,
    isWhiteSpace]

set_option maxRecDepth 4000 in
theorem glucose_mmol_digit (rest : JSString) :
    matchHere true (valuePattern diabetesLabel decimal23 unitMmol) (53 :: rest) = none := by
  simp [matchHere, valuePattern, diabetesLabel, decimal23, unitMmol, digits23, ws, colon,
    seqs, alts, str, js, utf16Char, matchRe, repeatAtom, Atom.test, canonicalize, isDigit,
    isWhiteSpace]

/-- The pattern finds nothing in `Blood Glucose: d.f mmol/L` nor in `Blood Glucose: d mmol/L`. -/
theorem glucose_mmol_single_digit (d : Nat) (hd : isDigit d = true) (f : JSString)
    (hf : ∀ x ∈ f, isDigit x = true) :
    jsMatch true (valuePattern diabetesLabel decimal23 unitMmol)
        (js "Blood Glucose: " ++ (d :: 46 :: (f ++ js " mmol/L"))) = none ∧
    jsMatch true (valuePattern diabetesLabel decimal23 unitMmol)
        (js "Blood Glucose: " ++ (d :: js " mmol/L")) = none :=
  ⟨jsMatch_single_digit_none _ (by decide) _ _ (by decide) (by decide) glucose_mmol_template
      glucose_mmol_digit (Option.isNone_iff_eq_none.1 (by decide)) d hd f hf,
   jsMatch_single_digit_plain _ (by decide) _ _ (by decide) (by decide)
      (Option.isNone_iff_eq_none.1 (by decide)) d hd⟩

set_option maxRecDepth 4000 in
theorem cholesterol_mg_template (tail : JSString) :
    jsMatch true (valuePattern cholesterolLabel decimal23 unitMg) (js "Cholesterol: " ++ (53 :: 46 :: tail)) =
      jsMatch true (valuePattern cholesterolLabel decimal23 unitMg) tail := by
  simp [jsMatch, matchHere, valuePattern, cholesterolLabel, decimal23, unitMg, digits23, ws, colon,
    seqs, alts, str, js, utf16Char, matchRe, repeatAtom, Atom.test, canonicalize, isDigit,
    isWhiteSpace]

set_option maxRecDepth 4000 in
theorem cholesterol_mg_digit (rest : JSString) :
    matchHere true (valuePattern cholesterolLabel decimal23 unitMg) (53 :: rest) = none := by
  simp [matchHere, valuePattern, cholesterolLabel, decimal23, unitMg, digits23, ws, colon,
    seqs, alts, str, js, utf16Char, matchRe, repeatAtom, Atom.test, canonicalize, isDigit,
    isWhiteSpace]

/-- The pattern finds nothing in `Cholesterol: d.f mmol/L` nor in `Cholesterol: d mmol/L`. -/
theorem cholesterol_mg_single_digit (d : Nat) (hd : isDigit d = true) (f : JSString)
    (hf : ∀ x ∈ f, isDigit x = true) :
    jsMatch true (valuePattern cholesterolLabel decimal23 unitMg)
        (js "Cholesterol: " ++ (d :: 46 :: (f ++ js " mmol/L"))) = none ∧
    jsMatch true (valuePattern cholesterolLabel decimal23 unitMg)
        (js "Cholesterol: " ++ (d :: js " mmol/L")) = none :=
  ⟨jsMatch_single_digit_none _ (by decide) _ _ (by decide) (by decide) cholesterol_mg_template
      cholesterol_mg_digit (Option.isNone_iff_eq_none.1 (by decide)) d hd f hf,
   jsMatch_single_digit_plain _ (by decide) _ _ (by decide) (by decide)
      (Option.isNone_iff_eq_none.1 (by decide)) d hd⟩

set_option maxRecDepth 4000 in
theorem cholesterol_mmol_template (tail : JSString) :
    jsMatch true (valuePattern cholesterolLabel decimal23 unitMmol) (js "Cholesterol: " ++ (53 :: 46 :: tail)) =
      jsMatch true (valuePattern cholesterolLabel decimal23 unitMmol) tail := by
  simp [jsMatch, matchHere, valuePattern, cholesterolLabel, decimal23, unitMmol, digits23, ws, colon,
    seqs, alts, str, js, utf16Char, matchRe, repeatAtom, Atom.test, canonicalize, isDigit,
    isWhiteSpace]

set_option maxRecDepth 4000 in
theorem cholesterol_mmol_digit (rest : JSString) :
    matchHere true (valuePattern cholesterolLabel decimal23 unitMmol) (53 :: rest) = none := by
  simp [matchHere, valuePattern, cholesterolLabel, decimal23, unitMmol, digits23, ws, colon,
    seqs, alts, str, js, utf16Char, matchRe, repeatAtom, Atom.test, canonicalize, isDigit,
    isWhiteSpace]

/-- The pattern finds nothing in `Cholesterol: d.f mmol/L` nor in `Cholesterol: d mmol/L`. -/
theorem cholesterol_mmol_single_digit (d : Nat) (hd : isDigit d = true) (f : JSString)
    (hf : ∀ x ∈ f, isDigit x = true) :
    jsMatch true (valuePattern cholesterolLabel decimal23 unitMmol)
        (js "Cholesterol: " ++ (d :: 46 :: (f ++ js " mmol/L"))) = none ∧
    jsMatch true (valuePattern cholesterolLabel decimal23 unitMmol)
        (js "Cholesterol: " ++ (d :: js " mmol/L")) = none :=
  ⟨jsMatch_single_digit_none _ (by decide) _ _ (by decide) (by decide) cholesterol_mmol_template
      cholesterol_mmol_digit (Option.isNone_iff_eq_none.1 (by decide)) d hd f hf,
   jsMatch_single_digit_plain _ (by decide) _ _ (by decide) (by decide)
      (Option.isNone_iff_eq_none.1 (by decide)) d hd⟩

/-- C18. For every decimal digit `d` and every text of digits `f` (possibly empty),
`extractHealthMetrics` leaves the glucose field null on `Blood Glucose: d.f mmol/L` and the
cholesterol field null on `Cholesterol: d.f mmol/L`, and likewise on `Blood Glucose: d mmol/L`
and `Cholesterol: d mmol/L`: neither pattern of these families matches a value whose integer
part has a single digit. -/
theorem extractHealthMetrics_single_digit (d : Nat) (hd : isDigit d = true) (f : JSString)
    (hf : ∀ x ∈ f, isDigit x = true) :
    (extractHealthMetrics (js "Blood Glucose: " ++ [d] ++ js "." ++ f ++ js " mmol/L")).diabetes
      = none ∧
    (extractHealthMetrics (js "Cholesterol: " ++ [d] ++ js "." ++ f ++ js " mmol/L")).cholesterol
      = none ∧
    (extractHealthMetrics (js "Blood Glucose: " ++ [d] ++ js " mmol/L")).diabetes = none ∧
    (extractHealthMetrics (js "Cholesterol: " ++ [d] ++ js " mmol/L")).cholesterol = none := by
  have e1 : ∀ label : JSString, label ++ [d] ++ js "." ++ f ++ js " mmol/L" =
      label ++ (d :: 46 :: (f ++ js " mmol/L")) := by
    intro label
    have : js "." = [46] := rfl
    rw [this]
    simp only [List.append_assoc, List.singleton_append, List.cons_append, List.nil_append]
  have e2 : ∀ label : JSString, label ++ [d] ++ js " mmol/L" = label ++ (d :: js " mmol/L") := by
    intro label
    simp only [List.append_assoc, List.singleton_append]
  have g1 := glucose_mg_single_digit d hd f hf
  have g2 := glucose_mmol_single_digit d hd f hf
  have c1 := cholesterol_mg_single_digit d hd f hf
  have c2 := cholesterol_mmol_single_digit d hd f hf
  have none_of : ∀ (text : JSString) (ps : List Regex),
      (∀ p ∈ ps, jsMatch true p text = none) → firstMatch text ps = none :=
    fun text ps h => (firstMatch_none text ps).2 h
  refine ⟨?_, ?_, ?_, ?_⟩
  · rw [(extractHealthMetrics_values _).1, e1, none_of]
    · rfl
    · intro p hp
      simp only [diabetesPatterns, List.mem_cons, List.mem_singleton, List.not_mem_nil,
        or_false] at hp
      rcases hp with rfl | rfl
      · exact g1.1
      · exact g2.1
  · rw [(extractHealthMetrics_values _).2.1, e1, none_of]
    · rfl
    · intro p hp
      simp only [cholesterolPatterns, List.mem_cons, List.mem_singleton, List.not_mem_nil,
        or_false] at hp
      rcases hp with rfl | rfl
      · exact c1.1
      · exact c2.1
  · rw [(extractHealthMetrics_values _).1, e2, none_of]
    · rfl
    · intro p hp
      simp only [diabetesPatterns, List.mem_cons, List.mem_singleton, List.not_mem_nil,
        or_false] at hp
      rcases hp with rfl | rfl
      · exact g1.2
      · exact g2.2
  · rw [(extractHealthMetrics_values _).2.1, e2, none_of]
    · rfl
    · intro p hp
      simp only [cholesterolPatterns, List.mem_cons, List.mem_singleton, List.not_mem_nil,
        or_false] at hp
      rcases hp with rfl | rfl
      · exact c1.2
      · exact c2.2

theorem extractHealthMetrics_single_digit_witness :
    (extractHealthMetrics (js "Blood Glucose: 5.5 mmol/L")).diabetes = none ∧
    (extractHealthMetrics (js "Cholesterol: 5.5 mmol/L")).cholesterol = none :=
  have h := extractHealthMetrics_single_digit 53 (by decide) (js "5") (by decide)
  ⟨h.1, h.2.1⟩

end SmartDrug
